import Mathlib

set_option linter.all false

/-!
Verification of the UPID base32 codec and identifier construction.

The definitions below are a shallow embedding of the Rust sources
(src/upid_rs/src/b32.rs and src/upid_rs/src/lib.rs).  Machine integers
are modelled as Nat with explicit reductions: u8 left shifts wrap
modulo 256 and u128 left shifts wrap modulo 2^128, exactly where the
source performs the corresponding fixed-width operation.  Rust strings
are modelled as lists of characters; wherever the source inspects the
byte representation of a string, the UTF-8 encoding is made explicit.
Fallible indexing (which panics in Rust) is modelled with Option: a
result of none marks a panic.
-/

namespace Upid

/-- The 32-character alphabet of b32.rs, as ASCII byte values:
the bytes of the string of digits 2 to 7 followed by a to z. -/
def ENCODE : List Nat :=
  [50, 51, 52, 53, 54, 55,
   97, 98, 99, 100, 101, 102, 103, 104, 105, 106, 107, 108, 109,
   110, 111, 112, 113, 114, 115, 116, 117, 118, 119, 120, 121, 122]

/-- The inverse lookup table of b32.rs: ASCII byte to alphabet index,
255 for bytes outside the alphabet. -/
def DECODE : List Nat :=
  [255, 255, 255, 255, 255, 255, 255, 255, 255, 255, 255, 255, 255, 255, 255, 255,
   255, 255, 255, 255, 255, 255, 255, 255, 255, 255, 255, 255, 255, 255, 255, 255,
   255, 255, 255, 255, 255, 255, 255, 255, 255, 255, 255, 255, 255, 255, 255, 255,
   255, 255, 0, 1, 2, 3, 4, 5, 255, 255, 255, 255, 255, 255, 255, 255,
   255, 255, 255, 255, 255, 255, 255, 255, 255, 255, 255, 255, 255, 255, 255, 255,
   255, 255, 255, 255, 255, 255, 255, 255, 255, 255, 255, 255, 255, 255, 255, 255,
   255, 6, 7, 8, 9, 10, 11, 12, 13, 14, 15, 16, 17, 18, 19, 20,
   21, 22, 23, 24, 25, 26, 27, 28, 29, 30, 31, 255, 255, 255, 255, 255,
   255, 255, 255, 255, 255, 255, 255, 255, 255, 255, 255, 255, 255, 255, 255, 255,
   255, 255, 255, 255, 255, 255, 255, 255, 255, 255, 255, 255, 255, 255, 255, 255,
   255, 255, 255, 255, 255, 255, 255, 255, 255, 255, 255, 255, 255, 255, 255, 255,
   255, 255, 255, 255, 255, 255, 255, 255, 255, 255, 255, 255, 255, 255, 255, 255,
   255, 255, 255, 255, 255, 255, 255, 255, 255, 255, 255, 255, 255, 255, 255, 255,
   255, 255, 255, 255, 255, 255, 255, 255, 255, 255, 255, 255, 255, 255, 255, 255,
   255, 255, 255, 255, 255, 255, 255, 255, 255, 255, 255, 255, 255, 255, 255, 255,
   255, 255, 255, 255, 255, 255, 255, 255, 255, 255, 255, 255, 255, 255, 255, 255]

/-- Lookup in the DECODE table (the table has 256 entries, one per byte). -/
def dec (b : Nat) : Nat := DECODE.getD b 255

/-- Lookup in the ENCODE table (all indices used by the source are below 32). -/
def enc (i : Nat) : Nat := ENCODE.getD i 0

/-- Left shift of a u8 value: the result wraps modulo 256, as in Rust. -/
def shl8 (x k : Nat) : Nat := (x <<< k) % 256

/-- Encodes the time portion of binary data (5 bytes) to 8 base32
character bytes, following encode_time of b32.rs. -/
def encode_time (binary : List Nat) : List Nat :=
  let b := fun i => binary.getD i 0
  [enc ((b 0 &&& 248) >>> 3),
   enc (shl8 (b 0 &&& 7) 2 ||| ((b 1 &&& 192) >>> 6)),
   enc ((b 1 &&& 62) >>> 1),
   enc (shl8 (b 1 &&& 1) 4 ||| ((b 2 &&& 240) >>> 4)),
   enc (shl8 (b 2 &&& 15) 1 ||| ((b 3 &&& 128) >>> 7)),
   enc ((b 3 &&& 124) >>> 2),
   enc (shl8 (b 3 &&& 3) 3 ||| ((b 4 &&& 224) >>> 5)),
   enc (b 4 &&& 31)]

/-- Encodes the randomness portion of binary data (8 bytes) to 13 base32
character bytes, following encode_rando of b32.rs. -/
def encode_rando (binary : List Nat) : List Nat :=
  let b := fun i => binary.getD i 0
  [enc ((b 0 &&& 248) >>> 3),
   enc (shl8 (b 0 &&& 7) 2 ||| ((b 1 &&& 192) >>> 6)),
   enc ((b 1 &&& 62) >>> 1),
   enc (shl8 (b 1 &&& 1) 4 ||| ((b 2 &&& 240) >>> 4)),
   enc (shl8 (b 2 &&& 15) 1 ||| ((b 3 &&& 128) >>> 7)),
   enc ((b 3 &&& 124) >>> 2),
   enc (shl8 (b 3 &&& 3) 3 ||| ((b 4 &&& 224) >>> 5)),
   enc (b 4 &&& 31),
   enc ((b 5 &&& 248) >>> 3),
   enc (shl8 (b 5 &&& 7) 2 ||| ((b 6 &&& 192) >>> 6)),
   enc ((b 6 &&& 62) >>> 1),
   enc (shl8 (b 6 &&& 1) 4 ||| ((b 7 &&& 240) >>> 4)),
   enc (b 7 &&& 15)]

/-- Encodes the prefix portion of binary data (3 bytes) to the 4 prefix
character bytes and the 1 version character byte, following
encode_prefix of b32.rs. -/
def encode_prefix (binary : List Nat) : List Nat × List Nat :=
  let b := fun i => binary.getD i 0
  ([enc ((b 0 &&& 248) >>> 3),
    enc (shl8 (b 0 &&& 7) 2 ||| ((b 1 &&& 192) >>> 6)),
    enc ((b 1 &&& 62) >>> 1),
    enc (shl8 (b 1 &&& 1) 4 ||| ((b 2 &&& 240) >>> 4))],
   [enc (b 2 &&& 15)])

/-- Big-endian byte decomposition of a u128 value, as u128::to_be_bytes. -/
def to_be_bytes (v : Nat) : List Nat :=
  (List.range 16).map (fun i => (v >>> ((15 - i) * 8)) % 256)

/-- Encodes a u128 value to the 27 bytes of its textual form
(4 prefix characters, an underscore, 8 time characters, 13 randomness
characters, and the version character), following encode of b32.rs. -/
def encode (v : Nat) : List Nat :=
  let bytes := to_be_bytes v
  let time := encode_time (bytes.take 5)
  let rando := encode_rando ((bytes.drop 5).take 8)
  let pv := encode_prefix (bytes.drop 13)
  pv.1 ++ [95] ++ time ++ rando ++ pv.2

/-- The decode error type of b32.rs. -/
inductive DecodeError where
  | InvalidLength
  | InvalidChar
  | Overflow
  deriving DecidableEq

/-- Equality of decode results is decidable, so concrete runs of the decoder
can be checked by evaluation. -/
instance : DecidableEq (Except DecodeError Nat) := fun a b =>
  match a, b with
  | .ok x, .ok y => if h : x = y then .isTrue (by rw [h]) else .isFalse (by simp [h])
  | .error x, .error y => if h : x = y then .isTrue (by rw [h]) else .isFalse (by simp [h])
  | .ok x, .error y => .isFalse (by simp)
  | .error x, .ok y => .isFalse (by simp)

/-- Decodes the 5 prefix-and-version character bytes into 3 binary bytes,
following decode_prefix of b32.rs.  The Overflow check inspects the last
element of the input; the buffer construction indexes elements 0 to 4.
A result of none models a panic from out-of-bounds indexing. -/
def decode_prefix (encoded : List Nat) : Option (Except DecodeError (List Nat)) :=
  match encoded.get? (encoded.length - 1) with
  | none => none
  | some lastB =>
    if dec lastB > 15 then some (Except.error DecodeError.Overflow)
    else
      match encoded.get? 0, encoded.get? 1, encoded.get? 2, encoded.get? 3,
        encoded.get? 4 with
      | some e0, some e1, some e2, some e3, some e4 =>
        some (Except.ok
          [shl8 (dec e0) 3 ||| (dec e1 >>> 2),
           shl8 (dec e1) 6 ||| shl8 (dec e2) 1 ||| (dec e3 >>> 4),
           shl8 (dec e3) 4 ||| (dec e4 &&& 15)])
      | _, _, _, _, _ => none

/-- Decodes the 8 time character bytes into 5 binary bytes, following
decode_time of b32.rs. -/
def decode_time (encoded : List Nat) : Option (Except DecodeError (List Nat)) :=
  match encoded.get? 0, encoded.get? 1, encoded.get? 2, encoded.get? 3,
    encoded.get? 4, encoded.get? 5, encoded.get? 6, encoded.get? 7 with
  | some e0, some e1, some e2, some e3, some e4, some e5, some e6, some e7 =>
    some (Except.ok
      [shl8 (dec e0) 3 ||| (dec e1 >>> 2),
       shl8 (dec e1) 6 ||| shl8 (dec e2) 1 ||| (dec e3 >>> 4),
       shl8 (dec e3) 4 ||| (dec e4 >>> 1),
       shl8 (dec e4) 7 ||| shl8 (dec e5) 2 ||| (dec e6 >>> 3),
       shl8 (dec e6) 5 ||| dec e7])
  | _, _, _, _, _, _, _, _ => none

/-- Decodes the 13 randomness character bytes into 8 binary bytes,
following decode_rando of b32.rs. -/
def decode_rando (encoded : List Nat) : Option (Except DecodeError (List Nat)) :=
  match encoded.get? (encoded.length - 1) with
  | none => none
  | some lastB =>
    if dec lastB > 15 then some (Except.error DecodeError.Overflow)
    else
      match encoded.get? 0, encoded.get? 1, encoded.get? 2, encoded.get? 3,
        encoded.get? 4, encoded.get? 5, encoded.get? 6, encoded.get? 7,
        encoded.get? 8, encoded.get? 9, encoded.get? 10, encoded.get? 11,
        encoded.get? 12 with
      | some e0, some e1, some e2, some e3, some e4, some e5, some e6, some e7,
        some e8, some e9, some e10, some e11, some e12 =>
        some (Except.ok
          [shl8 (dec e0) 3 ||| (dec e1 >>> 2),
           shl8 (dec e1) 6 ||| shl8 (dec e2) 1 ||| (dec e3 >>> 4),
           shl8 (dec e3) 4 ||| (dec e4 >>> 1),
           shl8 (dec e4) 7 ||| shl8 (dec e5) 2 ||| (dec e6 >>> 3),
           shl8 (dec e6) 5 ||| dec e7,
           shl8 (dec e8) 3 ||| (dec e9 >>> 2),
           shl8 (dec e9) 6 ||| shl8 (dec e10) 1 ||| (dec e11 >>> 4),
           shl8 (dec e11) 4 ||| (dec e12 &&& 15)])
      | _, _, _, _, _, _, _, _, _, _, _, _, _ => none

/-- Reassembly of the 16 decoded bytes into a u128 value: the source
ors byte number shift into position 15 - shift (big-endian). -/
def assemble (bytes16 : List Nat) : Nat :=
  bytes16.enum.foldl
    (fun result sb => result ||| ((sb.2 <<< ((15 - sb.1) * 8)) % 2 ^ 128)) 0

/-- Decodes the encoded byte string to a u128 value, following decode of
b32.rs: underscores are removed, the remaining byte count must be 26,
every byte must belong to the alphabet, and the three blocks are decoded
with decode_prefix, decode_time and decode_rando. -/
def decode (input : List Nat) : Option (Except DecodeError Nat) :=
  let encoded := input.filter (fun b => b ≠ 95)
  if encoded.length ≠ 26 then some (Except.error DecodeError.InvalidLength)
  else if encoded.any (fun b => ¬ ENCODE.contains b) then
    some (Except.error DecodeError.InvalidChar)
  else
    match encoded.get? (encoded.length - 1) with
    | none => none
    | some lastB =>
      match decode_prefix (encoded.take 4 ++ [lastB]) with
      | none => none
      | some (Except.error e) => some (Except.error e)
      | some (Except.ok pfx) =>
        match decode_time ((encoded.drop 4).take 8) with
        | none => none
        | some (Except.error e) => some (Except.error e)
        | some (Except.ok time) =>
          match decode_rando ((encoded.drop 12).take 13) with
          | none => none
          | some (Except.error e) => some (Except.error e)
          | some (Except.ok rando) =>
            some (Except.ok (assemble (time ++ rando ++ pfx)))

/-- UTF-8 encoding of a single character. -/
def utf8Bytes (c : Char) : List Nat :=
  let v := c.toNat
  if v < 128 then [v]
  else if v < 2048 then
    [192 ||| (v >>> 6), 128 ||| (v &&& 63)]
  else if v < 65536 then
    [224 ||| (v >>> 12), 128 ||| ((v >>> 6) &&& 63), 128 ||| (v &&& 63)]
  else
    [240 ||| (v >>> 18), 128 ||| ((v >>> 12) &&& 63),
     128 ||| ((v >>> 6) &&& 63), 128 ||| (v &&& 63)]

/-- UTF-8 encoding of a string given as its list of characters. -/
def utf8 (s : List Char) : List Nat := (s.map utf8Bytes).flatten

/-- The fixed version string of lib.rs. -/
def VERSION : List Char := ['a']

/-- Decoding applied to a string: the source operates on the UTF-8 bytes. -/
def decodeStr (s : List Char) : Option (Except DecodeError Nat) := decode (utf8 s)

/-- Upid::from_prefix_and_milliseconds of lib.rs: the prefix is padded on
the right with z to at least 4 characters, cut to 4 characters, the
version character is appended, and the result of decode_prefix on the
UTF-8 bytes is packed together with the shifted timestamp and the u64
random draw.  A result of none models the panic of the expect call. -/
def from_prefix_and_milliseconds (p : List Char) (milliseconds randomDraw : Nat) :
    Option Nat :=
  let time_bits := milliseconds >>> 8
  let random := randomDraw % 2 ^ 64
  let padded := p ++ List.replicate (4 - p.length) 'z'
  let taken := padded.take 4
  let pv := taken ++ VERSION
  match decode_prefix (utf8 pv) with
  | some (Except.ok pbytes) =>
    some (((time_bits <<< 88) % 2 ^ 128) ||| ((random <<< 24) % 2 ^ 128) |||
      ((pbytes.getD 0 0 <<< 16) % 2 ^ 128) ||| ((pbytes.getD 1 0 <<< 8) % 2 ^ 128) |||
      (pbytes.getD 2 0 % 2 ^ 128))
  | _ => none

/-- Upid::milliseconds of lib.rs: shift out the low 88 bits, restore the
8 dropped bits as zeroes, and truncate to u64. -/
def milliseconds (upid : Nat) : Nat := ((upid >>> 88) <<< 8) % 2 ^ 64

/-- Upid::prefix of lib.rs: re-encode the low 3 bytes of the value and
return the 4 prefix character bytes. -/
def prefixField (upid : Nat) : List Nat :=
  Prod.fst ( encode_prefix ((to_be_bytes upid).drop 13))

/-- Lexicographic comparison of byte strings, as the Ord instance of
Rust str compares (byte-wise, a strict prefix is smaller). -/
def lexLt : List Nat → List Nat → Bool
  | _, [] => false
  | [], _ :: _ => true
  | a :: as, b :: bs => Nat.blt a b || (a == b && lexLt as bs)

/-- The alphabet as characters, for statements about strings. -/
def ALPHABET : List Char :=
  ['2', '3', '4', '5', '6', '7',
   'a', 'b', 'c', 'd', 'e', 'f', 'g', 'h', 'i', 'j', 'k', 'l', 'm',
   'n', 'o', 'p', 'q', 'r', 's', 't', 'u', 'v', 'w', 'x', 'y', 'z']


set_option maxRecDepth 100000

theorem get?_eq_getD {l : List Nat} {i : Nat} (h : i < l.length) :
    l.get? i = some (l.getD i 0) := by
  rw [List.get?_eq_getElem?, List.getD_eq_getElem?_getD, List.getElem?_eq_getElem h]
  rfl

theorem dec_le (b : Nat) : dec b ≤ 255 := by
  rcases Nat.lt_or_ge b 256 with h | h
  · exact (by decide : ∀ i : Fin 256, dec i.val ≤ 255) ⟨b, h⟩
  · unfold dec
    rw [List.getD_eq_default]
    exact (by decide : DECODE.length ≤ 256).trans h

theorem dec_enc {i : Nat} (h : i < 32) : dec (enc i) = i :=
  (by decide : ∀ i : Fin 32, dec (enc i.val) = i.val) ⟨i, h⟩

theorem enc_mem {i : Nat} (h : i < 32) : enc i ∈ ENCODE :=
  (by decide : ∀ i : Fin 32, enc i.val ∈ ENCODE) ⟨i, h⟩

theorem mem_dec_lt {b : Nat} (h : b ∈ ENCODE) : dec b < 32 :=
  (by decide : ∀ b ∈ ENCODE, dec b < 32) b h

theorem mem_ne95 {b : Nat} (h : b ∈ ENCODE) : b ≠ 95 :=
  (by decide : ∀ b ∈ ENCODE, b ≠ 95) b h

theorem mem_lt256 {b : Nat} (h : b ∈ ENCODE) : b < 256 :=
  (by decide : ∀ b ∈ ENCODE, b < 256) b h

theorem enc_dec_mem {b : Nat} (h : b ∈ ENCODE) : enc (dec b) = b :=
  (by decide : ∀ b ∈ ENCODE, enc (dec b) = b) b h

theorem enc_strictMono {i j : Nat} (hi : i < 32) (hj : j < 32) (hij : i < j) :
    enc i < enc j :=
  (by decide : ∀ i j : Fin 32, i.val < j.val → enc i.val < enc j.val) ⟨i, hi⟩ ⟨j, hj⟩ hij

theorem not_mem_dec {b : Nat} (h : b ∉ ENCODE) : dec b = 255 := by
  rcases Nat.lt_or_ge b 256 with hb | hb
  · exact (by decide : ∀ i : Fin 256, i.val ∉ ENCODE → dec i.val = 255) ⟨b, hb⟩ h
  · unfold dec
    rw [List.getD_eq_default]
    exact (by decide : DECODE.length ≤ 256).trans hb

theorem or_add_pow {S t : Nat} (k : Nat) (hS : S % 2 ^ k = 0) (ht : t < 2 ^ k) :
    S ||| t = S + t := by
  have h := Nat.mul_add_lt_is_or (i := k) ht (S / 2 ^ k)
  rw [Nat.mul_div_cancel' (Nat.dvd_of_mod_eq_zero hS)] at h
  exact h.symm

theorem shl_mod_pow {x k a : Nat} (hk : k + a ≤ 128) (hx : x < 2 ^ a) :
    (x <<< k) % 2 ^ 128 = x * 2 ^ k := by
  rw [Nat.shiftLeft_eq, Nat.mod_eq_of_lt]
  calc x * 2 ^ k < 2 ^ a * 2 ^ k :=
        Nat.mul_lt_mul_of_lt_of_le hx (Nat.le_refl _) (Nat.pos_pow_of_pos k (by norm_num))
    _ = 2 ^ (a + k) := by rw [Nat.pow_add]
    _ ≤ 2 ^ 128 := Nat.pow_le_pow_right (by norm_num) (by omega)

theorem shl88_mod (x : Nat) : (x <<< 88) % 2 ^ 128 = x % 2 ^ 40 * 2 ^ 88 := by
  rw [Nat.shiftLeft_eq]
  have h : (2 : Nat) ^ 128 = 2 ^ 40 * 2 ^ 88 := by norm_num
  rw [h, Nat.mul_mod_mul_right]

theorem shD1 {a b : Nat} (ha : a < 32) (hb : b < 32) :
    shl8 a 3 ||| (b >>> 2) = 8 * a + b / 4 :=
  (by decide : ∀ a b : Fin 32, shl8 a.val 3 ||| (b.val >>> 2) = 8 * a.val + b.val / 4)
    ⟨a, ha⟩ ⟨b, hb⟩

theorem shD2 {a b c : Nat} (ha : a < 32) (hb : b < 32) (hc : c < 32) :
    shl8 a 6 ||| shl8 b 1 ||| (c >>> 4) = 64 * (a % 4) + 2 * b + c / 16 := by
  have h1 : shl8 a 6 = 64 * (a % 4) :=
    (by decide : ∀ a : Fin 32, shl8 a.val 6 = 64 * (a.val % 4)) ⟨a, ha⟩
  have h2 : shl8 b 1 = 2 * b :=
    (by decide : ∀ b : Fin 32, shl8 b.val 1 = 2 * b.val) ⟨b, hb⟩
  have h3 : c >>> 4 = c / 16 := by
    rw [Nat.shiftRight_eq_div_pow]
  rw [h1, h2, h3]
  exact (by decide : ∀ x : Fin 4, ∀ y : Fin 32, ∀ z : Fin 2,
    64 * x.val ||| 2 * y.val ||| z.val = 64 * x.val + 2 * y.val + z.val)
    ⟨a % 4, by omega⟩ ⟨b, hb⟩ ⟨c / 16, by omega⟩

theorem shD3 {a b : Nat} (ha : a < 32) (hb : b < 32) :
    shl8 a 4 ||| (b >>> 1) = 16 * (a % 16) + b / 2 :=
  (by decide : ∀ a b : Fin 32, shl8 a.val 4 ||| (b.val >>> 1) = 16 * (a.val % 16) + b.val / 2)
    ⟨a, ha⟩ ⟨b, hb⟩

theorem shD4 {a b c : Nat} (ha : a < 32) (hb : b < 32) (hc : c < 32) :
    shl8 a 7 ||| shl8 b 2 ||| (c >>> 3) = 128 * (a % 2) + 4 * b + c / 8 := by
  have h1 : shl8 a 7 = 128 * (a % 2) :=
    (by decide : ∀ a : Fin 32, shl8 a.val 7 = 128 * (a.val % 2)) ⟨a, ha⟩
  have h2 : shl8 b 2 = 4 * b :=
    (by decide : ∀ b : Fin 32, shl8 b.val 2 = 4 * b.val) ⟨b, hb⟩
  have h3 : c >>> 3 = c / 8 := by
    rw [Nat.shiftRight_eq_div_pow]
  rw [h1, h2, h3]
  exact (by decide : ∀ x : Fin 2, ∀ y : Fin 32, ∀ z : Fin 4,
    128 * x.val ||| 4 * y.val ||| z.val = 128 * x.val + 4 * y.val + z.val)
    ⟨a % 2, by omega⟩ ⟨b, hb⟩ ⟨c / 8, by omega⟩

theorem shD5 {a b : Nat} (ha : a < 32) (hb : b < 32) :
    shl8 a 5 ||| b = 32 * (a % 8) + b :=
  (by decide : ∀ a b : Fin 32, shl8 a.val 5 ||| b.val = 32 * (a.val % 8) + b.val)
    ⟨a, ha⟩ ⟨b, hb⟩

theorem shD6 {a b : Nat} (ha : a < 32) (hb : b ≤ 255) :
    shl8 a 4 ||| (b &&& 15) = 16 * (a % 16) + b % 16 := by
  have h1 : shl8 a 4 = 16 * (a % 16) := by
    unfold shl8
    rw [Nat.shiftLeft_eq]
    omega
  have h2 : b &&& 15 = b % 16 :=
    (by decide : ∀ b : Fin 256, b.val &&& 15 = b.val % 16) ⟨b, by omega⟩
  rw [h1, h2]
  exact (by decide : ∀ x : Fin 16, ∀ y : Fin 16, 16 * x.val ||| y.val = 16 * x.val + y.val)
    ⟨a % 16, by omega⟩ ⟨b % 16, by omega⟩

theorem shE1 {x : Nat} (hx : x < 256) : (x &&& 248) >>> 3 = x / 8 :=
  (by decide : ∀ x : Fin 256, (x.val &&& 248) >>> 3 = x.val / 8) ⟨x, hx⟩

theorem shE2 {x y : Nat} (hx : x < 256) (hy : y < 256) :
    shl8 (x &&& 7) 2 ||| ((y &&& 192) >>> 6) = x % 8 * 4 + y / 64 := by
  have h1 : shl8 (x &&& 7) 2 = x % 8 * 4 :=
    (by decide : ∀ x : Fin 256, shl8 (x.val &&& 7) 2 = x.val % 8 * 4) ⟨x, hx⟩
  have h2 : (y &&& 192) >>> 6 = y / 64 :=
    (by decide : ∀ y : Fin 256, (y.val &&& 192) >>> 6 = y.val / 64) ⟨y, hy⟩
  rw [h1, h2]
  exact (by decide : ∀ u : Fin 8, ∀ v : Fin 4, u.val * 4 ||| v.val = u.val * 4 + v.val)
    ⟨x % 8, by omega⟩ ⟨y / 64, by omega⟩

theorem shE3 {x : Nat} (hx : x < 256) : (x &&& 62) >>> 1 = x / 2 % 32 :=
  (by decide : ∀ x : Fin 256, (x.val &&& 62) >>> 1 = x.val / 2 % 32) ⟨x, hx⟩

theorem shE4 {x y : Nat} (hx : x < 256) (hy : y < 256) :
    shl8 (x &&& 1) 4 ||| ((y &&& 240) >>> 4) = x % 2 * 16 + y / 16 := by
  have h1 : shl8 (x &&& 1) 4 = x % 2 * 16 :=
    (by decide : ∀ x : Fin 256, shl8 (x.val &&& 1) 4 = x.val % 2 * 16) ⟨x, hx⟩
  have h2 : (y &&& 240) >>> 4 = y / 16 :=
    (by decide : ∀ y : Fin 256, (y.val &&& 240) >>> 4 = y.val / 16) ⟨y, hy⟩
  rw [h1, h2]
  exact (by decide : ∀ u : Fin 2, ∀ v : Fin 16, u.val * 16 ||| v.val = u.val * 16 + v.val)
    ⟨x % 2, by omega⟩ ⟨y / 16, by omega⟩

theorem shE5 {x y : Nat} (hx : x < 256) (hy : y < 256) :
    shl8 (x &&& 15) 1 ||| ((y &&& 128) >>> 7) = x % 16 * 2 + y / 128 := by
  have h1 : shl8 (x &&& 15) 1 = x % 16 * 2 :=
    (by decide : ∀ x : Fin 256, shl8 (x.val &&& 15) 1 = x.val % 16 * 2) ⟨x, hx⟩
  have h2 : (y &&& 128) >>> 7 = y / 128 :=
    (by decide : ∀ y : Fin 256, (y.val &&& 128) >>> 7 = y.val / 128) ⟨y, hy⟩
  rw [h1, h2]
  exact (by decide : ∀ u : Fin 16, ∀ v : Fin 2, u.val * 2 ||| v.val = u.val * 2 + v.val)
    ⟨x % 16, by omega⟩ ⟨y / 128, by omega⟩

theorem shE6 {x : Nat} (hx : x < 256) : (x &&& 124) >>> 2 = x / 4 % 32 :=
  (by decide : ∀ x : Fin 256, (x.val &&& 124) >>> 2 = x.val / 4 % 32) ⟨x, hx⟩

theorem shE7 {x y : Nat} (hx : x < 256) (hy : y < 256) :
    shl8 (x &&& 3) 3 ||| ((y &&& 224) >>> 5) = x % 4 * 8 + y / 32 := by
  have h1 : shl8 (x &&& 3) 3 = x % 4 * 8 :=
    (by decide : ∀ x : Fin 256, shl8 (x.val &&& 3) 3 = x.val % 4 * 8) ⟨x, hx⟩
  have h2 : (y &&& 224) >>> 5 = y / 32 :=
    (by decide : ∀ y : Fin 256, (y.val &&& 224) >>> 5 = y.val / 32) ⟨y, hy⟩
  rw [h1, h2]
  exact (by decide : ∀ u : Fin 4, ∀ v : Fin 8, u.val * 8 ||| v.val = u.val * 8 + v.val)
    ⟨x % 4, by omega⟩ ⟨y / 32, by omega⟩

theorem shE8 {x : Nat} (hx : x < 256) : x &&& 31 = x % 32 :=
  (by decide : ∀ x : Fin 256, x.val &&& 31 = x.val % 32) ⟨x, hx⟩

theorem shE9 {x : Nat} (hx : x < 256) : x &&& 15 = x % 16 :=
  (by decide : ∀ x : Fin 256, x.val &&& 15 = x.val % 16) ⟨x, hx⟩

/-- Value of a big-endian list of base-32 digits. -/
def digitsVal (ds : List Nat) : Nat := ds.foldl (fun a d => a * 32 + d) 0

/-- Big-endian base-32 digits of a value, w digits wide. -/
def digitsBE : Nat → Nat → List Nat
  | 0, _ => []
  | w + 1, N => (N / 32 ^ w % 32) :: digitsBE w N

/-- The 5 big-endian bytes of a 40-bit value. -/
def bytes5 (M : Nat) : List Nat :=
  [M / 2 ^ 32 % 256, M / 2 ^ 24 % 256, M / 2 ^ 16 % 256, M / 2 ^ 8 % 256, M % 256]

/-- The 8 big-endian bytes of a 64-bit value. -/
def bytes8 (M : Nat) : List Nat :=
  [M / 2 ^ 56 % 256, M / 2 ^ 48 % 256, M / 2 ^ 40 % 256, M / 2 ^ 32 % 256,
   M / 2 ^ 24 % 256, M / 2 ^ 16 % 256, M / 2 ^ 8 % 256, M % 256]

/-- The 3 big-endian bytes of a 24-bit value. -/
def bytes3 (M : Nat) : List Nat := [M / 2 ^ 16 % 256, M / 2 ^ 8 % 256, M % 256]

theorem encode_time_chars (x0 x1 x2 x3 x4 : Nat) (h0 : x0 < 256) (h1 : x1 < 256)
    (h2 : x2 < 256) (h3 : x3 < 256) (h4 : x4 < 256) :
    encode_time [x0, x1, x2, x3, x4] =
      (digitsBE 8 (x0 * 2 ^ 32 + x1 * 2 ^ 24 + x2 * 2 ^ 16 + x3 * 2 ^ 8 + x4)).map enc := by
  have hu : encode_time [x0, x1, x2, x3, x4] =
      [enc ((x0 &&& 248) >>> 3),
       enc (shl8 (x0 &&& 7) 2 ||| ((x1 &&& 192) >>> 6)),
       enc ((x1 &&& 62) >>> 1),
       enc (shl8 (x1 &&& 1) 4 ||| ((x2 &&& 240) >>> 4)),
       enc (shl8 (x2 &&& 15) 1 ||| ((x3 &&& 128) >>> 7)),
       enc ((x3 &&& 124) >>> 2),
       enc (shl8 (x3 &&& 3) 3 ||| ((x4 &&& 224) >>> 5)),
       enc (x4 &&& 31)] := rfl
  rw [hu, shE1 h0, shE2 h0 h1, shE3 h1, shE4 h1 h2, shE5 h2 h3, shE6 h3, shE7 h3 h4, shE8 h4]
  simp only [digitsBE, List.map]
  refine List.cons_eq_cons.mpr ⟨congrArg enc (by omega), ?_⟩
  refine List.cons_eq_cons.mpr ⟨congrArg enc (by omega), ?_⟩
  refine List.cons_eq_cons.mpr ⟨congrArg enc (by omega), ?_⟩
  refine List.cons_eq_cons.mpr ⟨congrArg enc (by omega), ?_⟩
  refine List.cons_eq_cons.mpr ⟨congrArg enc (by omega), ?_⟩
  refine List.cons_eq_cons.mpr ⟨congrArg enc (by omega), ?_⟩
  refine List.cons_eq_cons.mpr ⟨congrArg enc (by omega), ?_⟩
  refine List.cons_eq_cons.mpr ⟨congrArg enc (by omega), rfl⟩

theorem encode_rando_chars (x0 x1 x2 x3 x4 x5 x6 x7 : Nat) (h0 : x0 < 256)
    (h1 : x1 < 256) (h2 : x2 < 256) (h3 : x3 < 256) (h4 : x4 < 256) (h5 : x5 < 256)
    (h6 : x6 < 256) (h7 : x7 < 256) :
    encode_rando [x0, x1, x2, x3, x4, x5, x6, x7] =
      (digitsBE 12 ((x0 * 2 ^ 56 + x1 * 2 ^ 48 + x2 * 2 ^ 40 + x3 * 2 ^ 32 +
        x4 * 2 ^ 24 + x5 * 2 ^ 16 + x6 * 2 ^ 8 + x7) / 16)).map enc ++
      [enc (x7 % 16)] := by
  have hu : encode_rando [x0, x1, x2, x3, x4, x5, x6, x7] =
      [enc ((x0 &&& 248) >>> 3),
       enc (shl8 (x0 &&& 7) 2 ||| ((x1 &&& 192) >>> 6)),
       enc ((x1 &&& 62) >>> 1),
       enc (shl8 (x1 &&& 1) 4 ||| ((x2 &&& 240) >>> 4)),
       enc (shl8 (x2 &&& 15) 1 ||| ((x3 &&& 128) >>> 7)),
       enc ((x3 &&& 124) >>> 2),
       enc (shl8 (x3 &&& 3) 3 ||| ((x4 &&& 224) >>> 5)),
       enc (x4 &&& 31),
       enc ((x5 &&& 248) >>> 3),
       enc (shl8 (x5 &&& 7) 2 ||| ((x6 &&& 192) >>> 6)),
       enc ((x6 &&& 62) >>> 1),
       enc (shl8 (x6 &&& 1) 4 ||| ((x7 &&& 240) >>> 4)),
       enc (x7 &&& 15)] := rfl
  rw [hu, shE1 h0, shE2 h0 h1, shE3 h1, shE4 h1 h2, shE5 h2 h3, shE6 h3, shE7 h3 h4,
    shE8 h4, shE1 h5, shE2 h5 h6, shE3 h6, shE4 h6 h7, shE9 h7]
  simp only [digitsBE, List.map, List.cons_append, List.nil_append]
  refine List.cons_eq_cons.mpr ⟨congrArg enc (by omega), ?_⟩
  refine List.cons_eq_cons.mpr ⟨congrArg enc (by omega), ?_⟩
  refine List.cons_eq_cons.mpr ⟨congrArg enc (by omega), ?_⟩
  refine List.cons_eq_cons.mpr ⟨congrArg enc (by omega), ?_⟩
  refine List.cons_eq_cons.mpr ⟨congrArg enc (by omega), ?_⟩
  refine List.cons_eq_cons.mpr ⟨congrArg enc (by omega), ?_⟩
  refine List.cons_eq_cons.mpr ⟨congrArg enc (by omega), ?_⟩
  refine List.cons_eq_cons.mpr ⟨congrArg enc (by omega), ?_⟩
  refine List.cons_eq_cons.mpr ⟨congrArg enc (by omega), ?_⟩
  refine List.cons_eq_cons.mpr ⟨congrArg enc (by omega), ?_⟩
  refine List.cons_eq_cons.mpr ⟨congrArg enc (by omega), ?_⟩
  refine List.cons_eq_cons.mpr ⟨congrArg enc (by omega), ?_⟩
  refine List.cons_eq_cons.mpr ⟨congrArg enc (by omega), rfl⟩

theorem encode_prefix_chars (x0 x1 x2 : Nat) (h0 : x0 < 256) (h1 : x1 < 256)
    (h2 : x2 < 256) :
    encode_prefix [x0, x1, x2] =
      ((digitsBE 4 ((x0 * 2 ^ 16 + x1 * 2 ^ 8 + x2) / 16)).map enc, [enc (x2 % 16)]) := by
  have hu : encode_prefix [x0, x1, x2] =
      ([enc ((x0 &&& 248) >>> 3),
        enc (shl8 (x0 &&& 7) 2 ||| ((x1 &&& 192) >>> 6)),
        enc ((x1 &&& 62) >>> 1),
        enc (shl8 (x1 &&& 1) 4 ||| ((x2 &&& 240) >>> 4))],
       [enc (x2 &&& 15)]) := rfl
  rw [hu, shE1 h0, shE2 h0 h1, shE3 h1, shE4 h1 h2, shE9 h2]
  simp only [digitsBE, List.map, Prod.mk.injEq]
  refine ⟨?_, trivial⟩
  refine List.cons_eq_cons.mpr ⟨congrArg enc (by omega), ?_⟩
  refine List.cons_eq_cons.mpr ⟨congrArg enc (by omega), ?_⟩
  refine List.cons_eq_cons.mpr ⟨congrArg enc (by omega), ?_⟩
  refine List.cons_eq_cons.mpr ⟨congrArg enc (by omega), rfl⟩

theorem decode_time_chars (e0 e1 e2 e3 e4 e5 e6 e7 : Nat)
    (h0 : dec e0 < 32) (h1 : dec e1 < 32) (h2 : dec e2 < 32) (h3 : dec e3 < 32)
    (h4 : dec e4 < 32) (h5 : dec e5 < 32) (h6 : dec e6 < 32) (h7 : dec e7 < 32) :
    decode_time [e0, e1, e2, e3, e4, e5, e6, e7] =
      some (Except.ok (bytes5 (digitsVal
        [dec e0, dec e1, dec e2, dec e3, dec e4, dec e5, dec e6, dec e7]))) := by
  have hu : decode_time [e0, e1, e2, e3, e4, e5, e6, e7] =
      some (Except.ok
        [shl8 (dec e0) 3 ||| (dec e1 >>> 2),
         shl8 (dec e1) 6 ||| shl8 (dec e2) 1 ||| (dec e3 >>> 4),
         shl8 (dec e3) 4 ||| (dec e4 >>> 1),
         shl8 (dec e4) 7 ||| shl8 (dec e5) 2 ||| (dec e6 >>> 3),
         shl8 (dec e6) 5 ||| dec e7]) := rfl
  rw [hu, shD1 h0 h1, shD2 h1 h2 h3, shD3 h3 h4, shD4 h4 h5 h6, shD5 h6 h7]
  simp only [bytes5, digitsVal, List.foldl]
  refine congrArg (fun l => some (Except.ok l)) ?_
  refine List.cons_eq_cons.mpr ⟨by omega, ?_⟩
  refine List.cons_eq_cons.mpr ⟨by omega, ?_⟩
  refine List.cons_eq_cons.mpr ⟨by omega, ?_⟩
  refine List.cons_eq_cons.mpr ⟨by omega, ?_⟩
  refine List.cons_eq_cons.mpr ⟨by omega, rfl⟩

theorem decode_rando_chars (e0 e1 e2 e3 e4 e5 e6 e7 e8 e9 e10 e11 e12 : Nat)
    (h0 : dec e0 < 32) (h1 : dec e1 < 32) (h2 : dec e2 < 32) (h3 : dec e3 < 32)
    (h4 : dec e4 < 32) (h5 : dec e5 < 32) (h6 : dec e6 < 32) (h7 : dec e7 < 32)
    (h8 : dec e8 < 32) (h9 : dec e9 < 32) (h10 : dec e10 < 32) (h11 : dec e11 < 32)
    (h12 : dec e12 ≤ 15) :
    decode_rando [e0, e1, e2, e3, e4, e5, e6, e7, e8, e9, e10, e11, e12] =
      some (Except.ok (bytes8 (digitsVal
        [dec e0, dec e1, dec e2, dec e3, dec e4, dec e5, dec e6, dec e7, dec e8,
         dec e9, dec e10, dec e11] * 16 + dec e12))) := by
  have hu : decode_rando [e0, e1, e2, e3, e4, e5, e6, e7, e8, e9, e10, e11, e12] =
      if dec e12 > 15 then some (Except.error DecodeError.Overflow)
      else some (Except.ok
        [shl8 (dec e0) 3 ||| (dec e1 >>> 2),
         shl8 (dec e1) 6 ||| shl8 (dec e2) 1 ||| (dec e3 >>> 4),
         shl8 (dec e3) 4 ||| (dec e4 >>> 1),
         shl8 (dec e4) 7 ||| shl8 (dec e5) 2 ||| (dec e6 >>> 3),
         shl8 (dec e6) 5 ||| dec e7,
         shl8 (dec e8) 3 ||| (dec e9 >>> 2),
         shl8 (dec e9) 6 ||| shl8 (dec e10) 1 ||| (dec e11 >>> 4),
         shl8 (dec e11) 4 ||| (dec e12 &&& 15)]) := rfl
  rw [hu, if_neg (by omega), shD1 h0 h1, shD2 h1 h2 h3, shD3 h3 h4, shD4 h4 h5 h6,
    shD5 h6 h7, shD1 h8 h9, shD2 h9 h10 h11, shD6 h11 (dec_le e12)]
  simp only [bytes8, digitsVal, List.foldl]
  refine congrArg (fun l => some (Except.ok l)) ?_
  refine List.cons_eq_cons.mpr ⟨by omega, ?_⟩
  refine List.cons_eq_cons.mpr ⟨by omega, ?_⟩
  refine List.cons_eq_cons.mpr ⟨by omega, ?_⟩
  refine List.cons_eq_cons.mpr ⟨by omega, ?_⟩
  refine List.cons_eq_cons.mpr ⟨by omega, ?_⟩
  refine List.cons_eq_cons.mpr ⟨by omega, ?_⟩
  refine List.cons_eq_cons.mpr ⟨by omega, ?_⟩
  refine List.cons_eq_cons.mpr ⟨by omega, rfl⟩

theorem decode_rando_over (e0 e1 e2 e3 e4 e5 e6 e7 e8 e9 e10 e11 e12 : Nat)
    (h12 : dec e12 > 15) :
    decode_rando [e0, e1, e2, e3, e4, e5, e6, e7, e8, e9, e10, e11, e12] =
      some (Except.error DecodeError.Overflow) := by
  have hu : decode_rando [e0, e1, e2, e3, e4, e5, e6, e7, e8, e9, e10, e11, e12] =
      if dec e12 > 15 then some (Except.error DecodeError.Overflow)
      else some (Except.ok
        [shl8 (dec e0) 3 ||| (dec e1 >>> 2),
         shl8 (dec e1) 6 ||| shl8 (dec e2) 1 ||| (dec e3 >>> 4),
         shl8 (dec e3) 4 ||| (dec e4 >>> 1),
         shl8 (dec e4) 7 ||| shl8 (dec e5) 2 ||| (dec e6 >>> 3),
         shl8 (dec e6) 5 ||| dec e7,
         shl8 (dec e8) 3 ||| (dec e9 >>> 2),
         shl8 (dec e9) 6 ||| shl8 (dec e10) 1 ||| (dec e11 >>> 4),
         shl8 (dec e11) 4 ||| (dec e12 &&& 15)]) := rfl
  rw [hu, if_pos h12]

theorem decode_prefix_chars (e0 e1 e2 e3 e4 : Nat)
    (h0 : dec e0 < 32) (h1 : dec e1 < 32) (h2 : dec e2 < 32) (h3 : dec e3 < 32)
    (h4 : dec e4 ≤ 15) :
    decode_prefix [e0, e1, e2, e3, e4] =
      some (Except.ok (bytes3 (digitsVal [dec e0, dec e1, dec e2, dec e3] * 16 + dec e4))) := by
  have hu : decode_prefix [e0, e1, e2, e3, e4] =
      if dec e4 > 15 then some (Except.error DecodeError.Overflow)
      else some (Except.ok
        [shl8 (dec e0) 3 ||| (dec e1 >>> 2),
         shl8 (dec e1) 6 ||| shl8 (dec e2) 1 ||| (dec e3 >>> 4),
         shl8 (dec e3) 4 ||| (dec e4 &&& 15)]) := rfl
  rw [hu, if_neg (by omega), shD1 h0 h1, shD2 h1 h2 h3, shD6 h3 (dec_le e4)]
  simp only [bytes3, digitsVal, List.foldl]
  refine congrArg (fun l => some (Except.ok l)) ?_
  refine List.cons_eq_cons.mpr ⟨by omega, ?_⟩
  refine List.cons_eq_cons.mpr ⟨by omega, ?_⟩
  refine List.cons_eq_cons.mpr ⟨by omega, rfl⟩

theorem decode_prefix_over (e0 e1 e2 e3 e4 : Nat) (h4 : dec e4 > 15) :
    decode_prefix [e0, e1, e2, e3, e4] = some (Except.error DecodeError.Overflow) := by
  have hu : decode_prefix [e0, e1, e2, e3, e4] =
      if dec e4 > 15 then some (Except.error DecodeError.Overflow)
      else some (Except.ok
        [shl8 (dec e0) 3 ||| (dec e1 >>> 2),
         shl8 (dec e1) 6 ||| shl8 (dec e2) 1 ||| (dec e3 >>> 4),
         shl8 (dec e3) 4 ||| (dec e4 &&& 15)]) := rfl
  rw [hu, if_pos h4]

theorem decode_prefix_getD (l : List Nat) (hlen : 5 ≤ l.length)
    (hlast : dec (l.getD (l.length - 1) 0) ≤ 15) :
    decode_prefix l = some (Except.ok
      [shl8 (dec (l.getD 0 0)) 3 ||| (dec (l.getD 1 0) >>> 2),
       shl8 (dec (l.getD 1 0)) 6 ||| shl8 (dec (l.getD 2 0)) 1 ||| (dec (l.getD 3 0) >>> 4),
       shl8 (dec (l.getD 3 0)) 4 ||| (dec (l.getD 4 0) &&& 15)]) := by
  unfold decode_prefix
  rw [get?_eq_getD (by omega), get?_eq_getD (show 0 < l.length by omega),
    get?_eq_getD (show 1 < l.length by omega), get?_eq_getD (show 2 < l.length by omega),
    get?_eq_getD (show 3 < l.length by omega), get?_eq_getD (show 4 < l.length by omega)]
  simp only [if_neg (by omega : ¬ dec (l.getD (l.length - 1) 0) > 15)]

theorem assemble16 (b0 b1 b2 b3 b4 b5 b6 b7 b8 b9 b10 b11 b12 b13 b14 b15 : Nat)
    (h0 : b0 < 256) (h1 : b1 < 256) (h2 : b2 < 256) (h3 : b3 < 256) (h4 : b4 < 256) (h5 : b5 < 256) (h6 : b6 < 256) (h7 : b7 < 256) (h8 : b8 < 256) (h9 : b9 < 256) (h10 : b10 < 256) (h11 : b11 < 256) (h12 : b12 < 256) (h13 : b13 < 256) (h14 : b14 < 256) (h15 : b15 < 256) :
    assemble [b0, b1, b2, b3, b4, b5, b6, b7, b8, b9, b10, b11, b12, b13, b14, b15] =
      b0 * 2 ^ 120 + b1 * 2 ^ 112 + b2 * 2 ^ 104 + b3 * 2 ^ 96 + b4 * 2 ^ 88 + b5 * 2 ^ 80 + b6 * 2 ^ 72 + b7 * 2 ^ 64 + b8 * 2 ^ 56 + b9 * 2 ^ 48 + b10 * 2 ^ 40 + b11 * 2 ^ 32 + b12 * 2 ^ 24 + b13 * 2 ^ 16 + b14 * 2 ^ 8 + b15 := by
  have hu : assemble [b0, b1, b2, b3, b4, b5, b6, b7, b8, b9, b10, b11, b12, b13, b14, b15] =
      ((((((((((((((((0 ||| (b0 <<< 120 % 2 ^ 128)) ||| (b1 <<< 112 % 2 ^ 128)) ||| (b2 <<< 104 % 2 ^ 128)) ||| (b3 <<< 96 % 2 ^ 128)) ||| (b4 <<< 88 % 2 ^ 128)) ||| (b5 <<< 80 % 2 ^ 128)) ||| (b6 <<< 72 % 2 ^ 128)) ||| (b7 <<< 64 % 2 ^ 128)) ||| (b8 <<< 56 % 2 ^ 128)) ||| (b9 <<< 48 % 2 ^ 128)) ||| (b10 <<< 40 % 2 ^ 128)) ||| (b11 <<< 32 % 2 ^ 128)) ||| (b12 <<< 24 % 2 ^ 128)) ||| (b13 <<< 16 % 2 ^ 128)) ||| (b14 <<< 8 % 2 ^ 128)) ||| (b15 <<< 0 % 2 ^ 128)) := rfl
  rw [hu, shl_mod_pow (by norm_num) (show b0 < 2 ^ 8 by omega), shl_mod_pow (by norm_num) (show b1 < 2 ^ 8 by omega), shl_mod_pow (by norm_num) (show b2 < 2 ^ 8 by omega), shl_mod_pow (by norm_num) (show b3 < 2 ^ 8 by omega), shl_mod_pow (by norm_num) (show b4 < 2 ^ 8 by omega), shl_mod_pow (by norm_num) (show b5 < 2 ^ 8 by omega), shl_mod_pow (by norm_num) (show b6 < 2 ^ 8 by omega), shl_mod_pow (by norm_num) (show b7 < 2 ^ 8 by omega), shl_mod_pow (by norm_num) (show b8 < 2 ^ 8 by omega), shl_mod_pow (by norm_num) (show b9 < 2 ^ 8 by omega), shl_mod_pow (by norm_num) (show b10 < 2 ^ 8 by omega), shl_mod_pow (by norm_num) (show b11 < 2 ^ 8 by omega), shl_mod_pow (by norm_num) (show b12 < 2 ^ 8 by omega), shl_mod_pow (by norm_num) (show b13 < 2 ^ 8 by omega), shl_mod_pow (by norm_num) (show b14 < 2 ^ 8 by omega), shl_mod_pow (by norm_num) (show b15 < 2 ^ 8 by omega)]
  have o0 : 0 ||| b0 * 2 ^ 120 = 0 + b0 * 2 ^ 120 := or_add_pow 128 (by omega) (by omega)
  rw [o0]
  have o1 : 0 + b0 * 2 ^ 120 ||| b1 * 2 ^ 112 = 0 + b0 * 2 ^ 120 + b1 * 2 ^ 112 := or_add_pow 120 (by omega) (by omega)
  rw [o1]
  have o2 : 0 + b0 * 2 ^ 120 + b1 * 2 ^ 112 ||| b2 * 2 ^ 104 = 0 + b0 * 2 ^ 120 + b1 * 2 ^ 112 + b2 * 2 ^ 104 := or_add_pow 112 (by omega) (by omega)
  rw [o2]
  have o3 : 0 + b0 * 2 ^ 120 + b1 * 2 ^ 112 + b2 * 2 ^ 104 ||| b3 * 2 ^ 96 = 0 + b0 * 2 ^ 120 + b1 * 2 ^ 112 + b2 * 2 ^ 104 + b3 * 2 ^ 96 := or_add_pow 104 (by omega) (by omega)
  rw [o3]
  have o4 : 0 + b0 * 2 ^ 120 + b1 * 2 ^ 112 + b2 * 2 ^ 104 + b3 * 2 ^ 96 ||| b4 * 2 ^ 88 = 0 + b0 * 2 ^ 120 + b1 * 2 ^ 112 + b2 * 2 ^ 104 + b3 * 2 ^ 96 + b4 * 2 ^ 88 := or_add_pow 96 (by omega) (by omega)
  rw [o4]
  have o5 : 0 + b0 * 2 ^ 120 + b1 * 2 ^ 112 + b2 * 2 ^ 104 + b3 * 2 ^ 96 + b4 * 2 ^ 88 ||| b5 * 2 ^ 80 = 0 + b0 * 2 ^ 120 + b1 * 2 ^ 112 + b2 * 2 ^ 104 + b3 * 2 ^ 96 + b4 * 2 ^ 88 + b5 * 2 ^ 80 := or_add_pow 88 (by omega) (by omega)
  rw [o5]
  have o6 : 0 + b0 * 2 ^ 120 + b1 * 2 ^ 112 + b2 * 2 ^ 104 + b3 * 2 ^ 96 + b4 * 2 ^ 88 + b5 * 2 ^ 80 ||| b6 * 2 ^ 72 = 0 + b0 * 2 ^ 120 + b1 * 2 ^ 112 + b2 * 2 ^ 104 + b3 * 2 ^ 96 + b4 * 2 ^ 88 + b5 * 2 ^ 80 + b6 * 2 ^ 72 := or_add_pow 80 (by omega) (by omega)
  rw [o6]
  have o7 : 0 + b0 * 2 ^ 120 + b1 * 2 ^ 112 + b2 * 2 ^ 104 + b3 * 2 ^ 96 + b4 * 2 ^ 88 + b5 * 2 ^ 80 + b6 * 2 ^ 72 ||| b7 * 2 ^ 64 = 0 + b0 * 2 ^ 120 + b1 * 2 ^ 112 + b2 * 2 ^ 104 + b3 * 2 ^ 96 + b4 * 2 ^ 88 + b5 * 2 ^ 80 + b6 * 2 ^ 72 + b7 * 2 ^ 64 := or_add_pow 72 (by omega) (by omega)
  rw [o7]
  have o8 : 0 + b0 * 2 ^ 120 + b1 * 2 ^ 112 + b2 * 2 ^ 104 + b3 * 2 ^ 96 + b4 * 2 ^ 88 + b5 * 2 ^ 80 + b6 * 2 ^ 72 + b7 * 2 ^ 64 ||| b8 * 2 ^ 56 = 0 + b0 * 2 ^ 120 + b1 * 2 ^ 112 + b2 * 2 ^ 104 + b3 * 2 ^ 96 + b4 * 2 ^ 88 + b5 * 2 ^ 80 + b6 * 2 ^ 72 + b7 * 2 ^ 64 + b8 * 2 ^ 56 := or_add_pow 64 (by omega) (by omega)
  rw [o8]
  have o9 : 0 + b0 * 2 ^ 120 + b1 * 2 ^ 112 + b2 * 2 ^ 104 + b3 * 2 ^ 96 + b4 * 2 ^ 88 + b5 * 2 ^ 80 + b6 * 2 ^ 72 + b7 * 2 ^ 64 + b8 * 2 ^ 56 ||| b9 * 2 ^ 48 = 0 + b0 * 2 ^ 120 + b1 * 2 ^ 112 + b2 * 2 ^ 104 + b3 * 2 ^ 96 + b4 * 2 ^ 88 + b5 * 2 ^ 80 + b6 * 2 ^ 72 + b7 * 2 ^ 64 + b8 * 2 ^ 56 + b9 * 2 ^ 48 := or_add_pow 56 (by omega) (by omega)
  rw [o9]
  have o10 : 0 + b0 * 2 ^ 120 + b1 * 2 ^ 112 + b2 * 2 ^ 104 + b3 * 2 ^ 96 + b4 * 2 ^ 88 + b5 * 2 ^ 80 + b6 * 2 ^ 72 + b7 * 2 ^ 64 + b8 * 2 ^ 56 + b9 * 2 ^ 48 ||| b10 * 2 ^ 40 = 0 + b0 * 2 ^ 120 + b1 * 2 ^ 112 + b2 * 2 ^ 104 + b3 * 2 ^ 96 + b4 * 2 ^ 88 + b5 * 2 ^ 80 + b6 * 2 ^ 72 + b7 * 2 ^ 64 + b8 * 2 ^ 56 + b9 * 2 ^ 48 + b10 * 2 ^ 40 := or_add_pow 48 (by omega) (by omega)
  rw [o10]
  have o11 : 0 + b0 * 2 ^ 120 + b1 * 2 ^ 112 + b2 * 2 ^ 104 + b3 * 2 ^ 96 + b4 * 2 ^ 88 + b5 * 2 ^ 80 + b6 * 2 ^ 72 + b7 * 2 ^ 64 + b8 * 2 ^ 56 + b9 * 2 ^ 48 + b10 * 2 ^ 40 ||| b11 * 2 ^ 32 = 0 + b0 * 2 ^ 120 + b1 * 2 ^ 112 + b2 * 2 ^ 104 + b3 * 2 ^ 96 + b4 * 2 ^ 88 + b5 * 2 ^ 80 + b6 * 2 ^ 72 + b7 * 2 ^ 64 + b8 * 2 ^ 56 + b9 * 2 ^ 48 + b10 * 2 ^ 40 + b11 * 2 ^ 32 := or_add_pow 40 (by omega) (by omega)
  rw [o11]
  have o12 : 0 + b0 * 2 ^ 120 + b1 * 2 ^ 112 + b2 * 2 ^ 104 + b3 * 2 ^ 96 + b4 * 2 ^ 88 + b5 * 2 ^ 80 + b6 * 2 ^ 72 + b7 * 2 ^ 64 + b8 * 2 ^ 56 + b9 * 2 ^ 48 + b10 * 2 ^ 40 + b11 * 2 ^ 32 ||| b12 * 2 ^ 24 = 0 + b0 * 2 ^ 120 + b1 * 2 ^ 112 + b2 * 2 ^ 104 + b3 * 2 ^ 96 + b4 * 2 ^ 88 + b5 * 2 ^ 80 + b6 * 2 ^ 72 + b7 * 2 ^ 64 + b8 * 2 ^ 56 + b9 * 2 ^ 48 + b10 * 2 ^ 40 + b11 * 2 ^ 32 + b12 * 2 ^ 24 := or_add_pow 32 (by omega) (by omega)
  rw [o12]
  have o13 : 0 + b0 * 2 ^ 120 + b1 * 2 ^ 112 + b2 * 2 ^ 104 + b3 * 2 ^ 96 + b4 * 2 ^ 88 + b5 * 2 ^ 80 + b6 * 2 ^ 72 + b7 * 2 ^ 64 + b8 * 2 ^ 56 + b9 * 2 ^ 48 + b10 * 2 ^ 40 + b11 * 2 ^ 32 + b12 * 2 ^ 24 ||| b13 * 2 ^ 16 = 0 + b0 * 2 ^ 120 + b1 * 2 ^ 112 + b2 * 2 ^ 104 + b3 * 2 ^ 96 + b4 * 2 ^ 88 + b5 * 2 ^ 80 + b6 * 2 ^ 72 + b7 * 2 ^ 64 + b8 * 2 ^ 56 + b9 * 2 ^ 48 + b10 * 2 ^ 40 + b11 * 2 ^ 32 + b12 * 2 ^ 24 + b13 * 2 ^ 16 := or_add_pow 24 (by omega) (by omega)
  rw [o13]
  have o14 : 0 + b0 * 2 ^ 120 + b1 * 2 ^ 112 + b2 * 2 ^ 104 + b3 * 2 ^ 96 + b4 * 2 ^ 88 + b5 * 2 ^ 80 + b6 * 2 ^ 72 + b7 * 2 ^ 64 + b8 * 2 ^ 56 + b9 * 2 ^ 48 + b10 * 2 ^ 40 + b11 * 2 ^ 32 + b12 * 2 ^ 24 + b13 * 2 ^ 16 ||| b14 * 2 ^ 8 = 0 + b0 * 2 ^ 120 + b1 * 2 ^ 112 + b2 * 2 ^ 104 + b3 * 2 ^ 96 + b4 * 2 ^ 88 + b5 * 2 ^ 80 + b6 * 2 ^ 72 + b7 * 2 ^ 64 + b8 * 2 ^ 56 + b9 * 2 ^ 48 + b10 * 2 ^ 40 + b11 * 2 ^ 32 + b12 * 2 ^ 24 + b13 * 2 ^ 16 + b14 * 2 ^ 8 := or_add_pow 16 (by omega) (by omega)
  rw [o14]
  have o15 : 0 + b0 * 2 ^ 120 + b1 * 2 ^ 112 + b2 * 2 ^ 104 + b3 * 2 ^ 96 + b4 * 2 ^ 88 + b5 * 2 ^ 80 + b6 * 2 ^ 72 + b7 * 2 ^ 64 + b8 * 2 ^ 56 + b9 * 2 ^ 48 + b10 * 2 ^ 40 + b11 * 2 ^ 32 + b12 * 2 ^ 24 + b13 * 2 ^ 16 + b14 * 2 ^ 8 ||| b15 * 2 ^ 0 = 0 + b0 * 2 ^ 120 + b1 * 2 ^ 112 + b2 * 2 ^ 104 + b3 * 2 ^ 96 + b4 * 2 ^ 88 + b5 * 2 ^ 80 + b6 * 2 ^ 72 + b7 * 2 ^ 64 + b8 * 2 ^ 56 + b9 * 2 ^ 48 + b10 * 2 ^ 40 + b11 * 2 ^ 32 + b12 * 2 ^ 24 + b13 * 2 ^ 16 + b14 * 2 ^ 8 + b15 * 2 ^ 0 := or_add_pow 8 (by omega) (by omega)
  rw [o15]
  omega

theorem decode_chars26 (a0 a1 a2 a3 a4 a5 a6 a7 a8 a9 a10 a11 a12 a13 a14 a15 a16 a17 a18 a19 a20 a21 a22 a23 a24 a25 : Nat)
    (hmem : ∀ b ∈ [a0, a1, a2, a3, a4, a5, a6, a7, a8, a9, a10, a11, a12, a13, a14, a15, a16, a17, a18, a19, a20, a21, a22, a23, a24, a25], b ∈ ENCODE) :
    decode [a0, a1, a2, a3, a4, a5, a6, a7, a8, a9, a10, a11, a12, a13, a14, a15, a16, a17, a18, a19, a20, a21, a22, a23, a24, a25] =
      if dec a25 > 15 then some (Except.error DecodeError.Overflow)
      else if dec a24 > 15 then some (Except.error DecodeError.Overflow)
      else some (Except.ok (
        digitsVal [dec a4, dec a5, dec a6, dec a7, dec a8, dec a9, dec a10, dec a11] * 2 ^ 88 +
        (digitsVal [dec a12, dec a13, dec a14, dec a15, dec a16, dec a17, dec a18, dec a19, dec a20, dec a21, dec a22, dec a23] * 16 + dec a24) * 2 ^ 24 +
        (digitsVal [dec a0, dec a1, dec a2, dec a3] * 16 + dec a25))) := by
  have hd0 : dec a0 < 32 := mem_dec_lt (hmem a0 (by simp))
  have hd1 : dec a1 < 32 := mem_dec_lt (hmem a1 (by simp))
  have hd2 : dec a2 < 32 := mem_dec_lt (hmem a2 (by simp))
  have hd3 : dec a3 < 32 := mem_dec_lt (hmem a3 (by simp))
  have hd4 : dec a4 < 32 := mem_dec_lt (hmem a4 (by simp))
  have hd5 : dec a5 < 32 := mem_dec_lt (hmem a5 (by simp))
  have hd6 : dec a6 < 32 := mem_dec_lt (hmem a6 (by simp))
  have hd7 : dec a7 < 32 := mem_dec_lt (hmem a7 (by simp))
  have hd8 : dec a8 < 32 := mem_dec_lt (hmem a8 (by simp))
  have hd9 : dec a9 < 32 := mem_dec_lt (hmem a9 (by simp))
  have hd10 : dec a10 < 32 := mem_dec_lt (hmem a10 (by simp))
  have hd11 : dec a11 < 32 := mem_dec_lt (hmem a11 (by simp))
  have hd12 : dec a12 < 32 := mem_dec_lt (hmem a12 (by simp))
  have hd13 : dec a13 < 32 := mem_dec_lt (hmem a13 (by simp))
  have hd14 : dec a14 < 32 := mem_dec_lt (hmem a14 (by simp))
  have hd15 : dec a15 < 32 := mem_dec_lt (hmem a15 (by simp))
  have hd16 : dec a16 < 32 := mem_dec_lt (hmem a16 (by simp))
  have hd17 : dec a17 < 32 := mem_dec_lt (hmem a17 (by simp))
  have hd18 : dec a18 < 32 := mem_dec_lt (hmem a18 (by simp))
  have hd19 : dec a19 < 32 := mem_dec_lt (hmem a19 (by simp))
  have hd20 : dec a20 < 32 := mem_dec_lt (hmem a20 (by simp))
  have hd21 : dec a21 < 32 := mem_dec_lt (hmem a21 (by simp))
  have hd22 : dec a22 < 32 := mem_dec_lt (hmem a22 (by simp))
  have hd23 : dec a23 < 32 := mem_dec_lt (hmem a23 (by simp))
  have hd24 : dec a24 < 32 := mem_dec_lt (hmem a24 (by simp))
  have hd25 : dec a25 < 32 := mem_dec_lt (hmem a25 (by simp))
  have hfilter : List.filter (fun b => decide (b ≠ 95)) [a0, a1, a2, a3, a4, a5, a6, a7, a8, a9, a10, a11, a12, a13, a14, a15, a16, a17, a18, a19, a20, a21, a22, a23, a24, a25] = [a0, a1, a2, a3, a4, a5, a6, a7, a8, a9, a10, a11, a12, a13, a14, a15, a16, a17, a18, a19, a20, a21, a22, a23, a24, a25] := by
    refine List.filter_eq_self.mpr ?_
    intro b hb
    exact decide_eq_true (mem_ne95 (hmem b hb))
  simp only [decode]
  rw [hfilter]
  rw [if_neg (by simp)]
  have hany : ¬ (([a0, a1, a2, a3, a4, a5, a6, a7, a8, a9, a10, a11, a12, a13, a14, a15, a16, a17, a18, a19, a20, a21, a22, a23, a24, a25].any fun b => decide ¬ENCODE.contains b = true) = true) := by
    simp only [List.any_eq_true, decide_eq_true_eq, not_exists, not_and, not_not]
    intro b hb
    simpa using hmem b hb
  rw [if_neg hany]
  rw [show ([a0, a1, a2, a3, a4, a5, a6, a7, a8, a9, a10, a11, a12, a13, a14, a15, a16, a17, a18, a19, a20, a21, a22, a23, a24, a25].get? (([a0, a1, a2, a3, a4, a5, a6, a7, a8, a9, a10, a11, a12, a13, a14, a15, a16, a17, a18, a19, a20, a21, a22, a23, a24, a25] : List Nat).length - 1)) = some a25 from rfl]
  simp only []
  rw [show (List.take 4 [a0, a1, a2, a3, a4, a5, a6, a7, a8, a9, a10, a11, a12, a13, a14, a15, a16, a17, a18, a19, a20, a21, a22, a23, a24, a25] ++ [a25] : List Nat) = [a0, a1, a2, a3, a25] from rfl]
  rw [show (List.take 8 (List.drop 4 [a0, a1, a2, a3, a4, a5, a6, a7, a8, a9, a10, a11, a12, a13, a14, a15, a16, a17, a18, a19, a20, a21, a22, a23, a24, a25]) : List Nat) = [a4, a5, a6, a7, a8, a9, a10, a11] from rfl]
  rw [show (List.take 13 (List.drop 12 [a0, a1, a2, a3, a4, a5, a6, a7, a8, a9, a10, a11, a12, a13, a14, a15, a16, a17, a18, a19, a20, a21, a22, a23, a24, a25]) : List Nat) = [a12, a13, a14, a15, a16, a17, a18, a19, a20, a21, a22, a23, a24] from rfl]
  by_cases h25 : dec a25 > 15
  · rw [decode_prefix_over a0 a1 a2 a3 a25 h25]
    simp only []
    rw [if_pos h25]
  · rw [decode_prefix_chars a0 a1 a2 a3 a25 hd0 hd1 hd2 hd3 (by omega)]
    simp only []
    rw [decode_time_chars a4 a5 a6 a7 a8 a9 a10 a11 hd4 hd5 hd6 hd7 hd8 hd9 hd10 hd11]
    simp only []
    by_cases h24 : dec a24 > 15
    · rw [decode_rando_over a12 a13 a14 a15 a16 a17 a18 a19 a20 a21 a22 a23 a24 h24]
      simp only []
      rw [if_neg h25, if_pos h24]
    · rw [decode_rando_chars a12 a13 a14 a15 a16 a17 a18 a19 a20 a21 a22 a23 a24 hd12 hd13 hd14 hd15 hd16 hd17 hd18 hd19 hd20 hd21 hd22 hd23 (by omega)]
      simp only []
      rw [if_neg h25, if_neg h24]
      refine congrArg (fun v => some (Except.ok v)) ?_
      have hM : digitsVal [dec a4, dec a5, dec a6, dec a7, dec a8, dec a9, dec a10, dec a11] < 2 ^ 40 := by
        simp only [digitsVal, List.foldl]
        omega
      have hR : digitsVal [dec a12, dec a13, dec a14, dec a15, dec a16, dec a17, dec a18, dec a19, dec a20, dec a21, dec a22, dec a23] * 16 + dec a24 < 2 ^ 64 := by
        simp only [digitsVal, List.foldl]
        omega
      have hP : digitsVal [dec a0, dec a1, dec a2, dec a3] * 16 + dec a25 < 2 ^ 24 := by
        simp only [digitsVal, List.foldl]
        omega
      generalize hMv : digitsVal [dec a4, dec a5, dec a6, dec a7, dec a8, dec a9, dec a10, dec a11] = M at hM ⊢
      generalize hRv : digitsVal [dec a12, dec a13, dec a14, dec a15, dec a16, dec a17, dec a18, dec a19, dec a20, dec a21, dec a22, dec a23] * 16 + dec a24 = R at hR ⊢
      generalize hPv : digitsVal [dec a0, dec a1, dec a2, dec a3] * 16 + dec a25 = P at hP ⊢
      rw [show bytes5 M ++ bytes8 R ++ bytes3 P =
        [M / 2 ^ 32 % 256, M / 2 ^ 24 % 256, M / 2 ^ 16 % 256, M / 2 ^ 8 % 256, M % 256,
         R / 2 ^ 56 % 256, R / 2 ^ 48 % 256, R / 2 ^ 40 % 256, R / 2 ^ 32 % 256,
         R / 2 ^ 24 % 256, R / 2 ^ 16 % 256, R / 2 ^ 8 % 256, R % 256,
         P / 2 ^ 16 % 256, P / 2 ^ 8 % 256, P % 256] from by simp [bytes5, bytes8, bytes3]]
      rw [assemble16 _ _ _ _ _ _ _ _ _ _ _ _ _ _ _ _ (by omega) (by omega) (by omega) (by omega) (by omega) (by omega) (by omega) (by omega) (by omega) (by omega) (by omega) (by omega) (by omega) (by omega) (by omega) (by omega)]
      omega


set_option maxHeartbeats 2000000

theorem to_be_bytes_eq (v : Nat) :
    to_be_bytes v = [v >>> 120 % 256, v >>> 112 % 256, v >>> 104 % 256, v >>> 96 % 256, v >>> 88 % 256, v >>> 80 % 256, v >>> 72 % 256, v >>> 64 % 256, v >>> 56 % 256, v >>> 48 % 256, v >>> 40 % 256, v >>> 32 % 256, v >>> 24 % 256, v >>> 16 % 256, v >>> 8 % 256, v >>> 0 % 256] := rfl

theorem encode_chars (v : Nat) (hv : v < 2 ^ 128) :
    encode v =
      (digitsBE 4 (v % 2 ^ 24 / 16)).map enc ++ [95] ++
      (digitsBE 8 (v / 2 ^ 88)).map enc ++
      ((digitsBE 12 (v / 2 ^ 24 % 2 ^ 64 / 16)).map enc ++ [enc (v / 2 ^ 24 % 16)]) ++
      [enc (v % 16)] := by
  have hsr : ∀ k : Nat, v >>> k = v / 2 ^ k := fun k => Nat.shiftRight_eq_div_pow v k
  simp only [encode, to_be_bytes_eq]
  rw [show (List.take 5 [v >>> 120 % 256, v >>> 112 % 256, v >>> 104 % 256, v >>> 96 % 256, v >>> 88 % 256, v >>> 80 % 256, v >>> 72 % 256, v >>> 64 % 256, v >>> 56 % 256, v >>> 48 % 256, v >>> 40 % 256, v >>> 32 % 256, v >>> 24 % 256, v >>> 16 % 256, v >>> 8 % 256, v >>> 0 % 256] : List Nat) = [v >>> 120 % 256, v >>> 112 % 256, v >>> 104 % 256, v >>> 96 % 256, v >>> 88 % 256] from rfl]
  rw [show (List.take 8 (List.drop 5 [v >>> 120 % 256, v >>> 112 % 256, v >>> 104 % 256, v >>> 96 % 256, v >>> 88 % 256, v >>> 80 % 256, v >>> 72 % 256, v >>> 64 % 256, v >>> 56 % 256, v >>> 48 % 256, v >>> 40 % 256, v >>> 32 % 256, v >>> 24 % 256, v >>> 16 % 256, v >>> 8 % 256, v >>> 0 % 256]) : List Nat) = [v >>> 80 % 256, v >>> 72 % 256, v >>> 64 % 256, v >>> 56 % 256, v >>> 48 % 256, v >>> 40 % 256, v >>> 32 % 256, v >>> 24 % 256] from rfl]
  rw [show (List.drop 13 [v >>> 120 % 256, v >>> 112 % 256, v >>> 104 % 256, v >>> 96 % 256, v >>> 88 % 256, v >>> 80 % 256, v >>> 72 % 256, v >>> 64 % 256, v >>> 56 % 256, v >>> 48 % 256, v >>> 40 % 256, v >>> 32 % 256, v >>> 24 % 256, v >>> 16 % 256, v >>> 8 % 256, v >>> 0 % 256] : List Nat) = [v >>> 16 % 256, v >>> 8 % 256, v >>> 0 % 256] from rfl]
  rw [encode_time_chars (v >>> 120 % 256) (v >>> 112 % 256) (v >>> 104 % 256) (v >>> 96 % 256) (v >>> 88 % 256) (by omega) (by omega) (by omega) (by omega) (by omega)]
  rw [encode_rando_chars (v >>> 80 % 256) (v >>> 72 % 256) (v >>> 64 % 256) (v >>> 56 % 256) (v >>> 48 % 256) (v >>> 40 % 256) (v >>> 32 % 256) (v >>> 24 % 256) (by omega) (by omega) (by omega) (by omega) (by omega) (by omega) (by omega) (by omega)]
  rw [encode_prefix_chars (v >>> 16 % 256) (v >>> 8 % 256) (v >>> 0 % 256) (by omega) (by omega) (by omega)]
  simp only [hsr]
  have h1 : v / 2 ^ 120 % 256 * 2 ^ 32 + v / 2 ^ 112 % 256 * 2 ^ 24 + v / 2 ^ 104 % 256 * 2 ^ 16 +
      v / 2 ^ 96 % 256 * 2 ^ 8 + v / 2 ^ 88 % 256 = v / 2 ^ 88 := by omega
  have h2 : (v / 2 ^ 80 % 256 * 2 ^ 56 + v / 2 ^ 72 % 256 * 2 ^ 48 + v / 2 ^ 64 % 256 * 2 ^ 40 +
      v / 2 ^ 56 % 256 * 2 ^ 32 + v / 2 ^ 48 % 256 * 2 ^ 24 + v / 2 ^ 40 % 256 * 2 ^ 16 +
      v / 2 ^ 32 % 256 * 2 ^ 8 + v / 2 ^ 24 % 256) / 16 = v / 2 ^ 24 % 2 ^ 64 / 16 := by omega
  have h3 : (v / 2 ^ 16 % 256 * 2 ^ 16 + v / 2 ^ 8 % 256 * 2 ^ 8 + v / 2 ^ 0 % 256) / 16 =
      v % 2 ^ 24 / 16 := by omega
  have h4 : v / 2 ^ 24 % 256 % 16 = v / 2 ^ 24 % 16 := by omega
  have h5 : v / 2 ^ 0 % 256 % 16 = v % 16 := by omega
  rw [h1, h2, h3, h4, h5]

theorem char_toNat_inj {a b : Char} (h : a.toNat = b.toNat) : a = b :=
  Char.ext (UInt32.ext h)

theorem char_toNat_lt (c : Char) : c.toNat < 1114112 := by
  have h := c.valid
  unfold UInt32.isValidChar Nat.isValidChar at h
  simp only [Char.toNat]
  rcases h with h | ⟨h1, h2⟩ <;> omega

theorem utf8_nil : utf8 [] = [] := rfl

theorem utf8_cons (c : Char) (s : List Char) : utf8 (c :: s) = utf8Bytes c ++ utf8 s := by
  simp [utf8]

theorem byte_cont {y : Nat} (hy : y < 64) :
    dec (128 ||| y) = 255 ∧ 128 ||| y ≠ 95 :=
  (by decide : ∀ y : Fin 64, dec (128 ||| y.val) = 255 ∧ 128 ||| y.val ≠ 95) ⟨y, hy⟩

theorem byte_l2 {y : Nat} (hy : y < 32) :
    dec (192 ||| y) = 255 ∧ 192 ||| y ≠ 95 :=
  (by decide : ∀ y : Fin 32, dec (192 ||| y.val) = 255 ∧ 192 ||| y.val ≠ 95) ⟨y, hy⟩

theorem byte_l3 {y : Nat} (hy : y < 16) :
    dec (224 ||| y) = 255 ∧ 224 ||| y ≠ 95 :=
  (by decide : ∀ y : Fin 16, dec (224 ||| y.val) = 255 ∧ 224 ||| y.val ≠ 95) ⟨y, hy⟩

theorem byte_l4 {y : Nat} (hy : y < 8) :
    dec (240 ||| y) = 255 ∧ 240 ||| y ≠ 95 :=
  (by decide : ∀ y : Fin 8, dec (240 ||| y.val) = 255 ∧ 240 ||| y.val ≠ 95) ⟨y, hy⟩

theorem sixtythree_lt {v : Nat} : v &&& 63 < 64 :=
  Nat.lt_of_le_of_lt Nat.and_le_right (by norm_num)

theorem utf8Bytes_ne95 {c : Char} (hc : c ≠ '_') : ∀ b ∈ utf8Bytes c, b ≠ 95 := by
  intro b hb
  unfold utf8Bytes at hb
  by_cases h1 : c.toNat < 128
  · rw [if_pos h1] at hb
    simp only [List.mem_singleton] at hb
    subst hb
    intro h95
    exact hc (char_toNat_inj (by rw [h95]; rfl))
  · rw [if_neg h1] at hb
    by_cases h2 : c.toNat < 2048
    · rw [if_pos h2] at hb
      simp only [List.mem_cons, List.not_mem_nil, or_false] at hb
      rcases hb with rfl | rfl
      · exact (byte_l2 (by rw [Nat.shiftRight_eq_div_pow]; omega)).2
      · exact (byte_cont sixtythree_lt).2
    · rw [if_neg h2] at hb
      by_cases h3 : c.toNat < 65536
      · rw [if_pos h3] at hb
        simp only [List.mem_cons, List.not_mem_nil, or_false] at hb
        rcases hb with rfl | rfl | rfl
        · exact (byte_l3 (by rw [Nat.shiftRight_eq_div_pow]; omega)).2
        · exact (byte_cont sixtythree_lt).2
        · exact (byte_cont sixtythree_lt).2
      · rw [if_neg h3] at hb
        simp only [List.mem_cons, List.not_mem_nil, or_false] at hb
        have h4 := char_toNat_lt c
        rcases hb with rfl | rfl | rfl | rfl
        · exact (byte_l4 (by rw [Nat.shiftRight_eq_div_pow]; omega)).2
        · exact (byte_cont sixtythree_lt).2
        · exact (byte_cont sixtythree_lt).2
        · exact (byte_cont sixtythree_lt).2

theorem dec_ne255_mem {b : Nat} (h : dec b ≠ 255) : b ∈ ENCODE := by
  rcases Nat.lt_or_ge b 256 with hb | hb
  · exact (by decide : ∀ i : Fin 256, dec i.val ≠ 255 → i.val ∈ ENCODE) ⟨b, hb⟩ h
  · exact absurd (not_mem_dec (fun hmem => absurd (mem_lt256 hmem) (by omega))) h

theorem utf8Bytes_dec255 {c : Char} (hc : c ∉ ALPHABET) : ∀ b ∈ utf8Bytes c, dec b = 255 := by
  intro b hb
  unfold utf8Bytes at hb
  by_cases h1 : c.toNat < 128
  · rw [if_pos h1] at hb
    simp only [List.mem_singleton] at hb
    subst hb
    by_contra hne
    have hmem : c.toNat ∈ ENCODE := dec_ne255_mem hne
    have : Char.ofNat c.toNat ∈ ALPHABET :=
      (by decide : ∀ b ∈ ENCODE, Char.ofNat b ∈ ALPHABET) c.toNat hmem
    rw [Char.ofNat_toNat] at this
    exact hc this
  · rw [if_neg h1] at hb
    by_cases h2 : c.toNat < 2048
    · rw [if_pos h2] at hb
      simp only [List.mem_cons, List.not_mem_nil, or_false] at hb
      rcases hb with rfl | rfl
      · exact (byte_l2 (by rw [Nat.shiftRight_eq_div_pow]; omega)).1
      · exact (byte_cont sixtythree_lt).1
    · rw [if_neg h2] at hb
      by_cases h3 : c.toNat < 65536
      · rw [if_pos h3] at hb
        simp only [List.mem_cons, List.not_mem_nil, or_false] at hb
        rcases hb with rfl | rfl | rfl
        · exact (byte_l3 (by rw [Nat.shiftRight_eq_div_pow]; omega)).1
        · exact (byte_cont sixtythree_lt).1
        · exact (byte_cont sixtythree_lt).1
      · rw [if_neg h3] at hb
        simp only [List.mem_cons, List.not_mem_nil, or_false] at hb
        have h4 := char_toNat_lt c
        rcases hb with rfl | rfl | rfl | rfl
        · exact (byte_l4 (by rw [Nat.shiftRight_eq_div_pow]; omega)).1
        · exact (byte_cont sixtythree_lt).1
        · exact (byte_cont sixtythree_lt).1
        · exact (byte_cont sixtythree_lt).1

theorem utf8Bytes_alpha {c : Char} (h : c ∈ ALPHABET) : utf8Bytes c = [c.toNat] :=
  (by decide : ∀ c ∈ ALPHABET, utf8Bytes c = [c.toNat]) c h

theorem alpha_toNat_mem {c : Char} (h : c ∈ ALPHABET) : c.toNat ∈ ENCODE :=
  (by decide : ∀ c ∈ ALPHABET, c.toNat ∈ ENCODE) c h

theorem utf8_alpha {s : List Char} (h : ∀ c ∈ s, c ∈ ALPHABET) :
    utf8 s = s.map Char.toNat := by
  induction s with
  | nil => rfl
  | cons c t ih =>
    rw [utf8_cons, utf8Bytes_alpha (h c (by simp)), List.map_cons]
    rw [ih (fun x hx => h x (List.mem_cons_of_mem c hx))]
    rfl

theorem digitsBE4_inv (d0 d1 d2 d3 : Nat) (h0 : d0 < 32) (h1 : d1 < 32) (h2 : d2 < 32) (h3 : d3 < 32) :
    digitsBE 4 (digitsVal [d0, d1, d2, d3]) = [d0, d1, d2, d3] := by
  simp only [digitsBE, digitsVal, List.foldl]
  refine List.cons_eq_cons.mpr ⟨by omega, ?_⟩
  refine List.cons_eq_cons.mpr ⟨by omega, ?_⟩
  refine List.cons_eq_cons.mpr ⟨by omega, ?_⟩
  refine List.cons_eq_cons.mpr ⟨by omega, rfl⟩

theorem digitsBE8_inv (d0 d1 d2 d3 d4 d5 d6 d7 : Nat) (h0 : d0 < 32) (h1 : d1 < 32) (h2 : d2 < 32) (h3 : d3 < 32) (h4 : d4 < 32) (h5 : d5 < 32) (h6 : d6 < 32) (h7 : d7 < 32) :
    digitsBE 8 (digitsVal [d0, d1, d2, d3, d4, d5, d6, d7]) = [d0, d1, d2, d3, d4, d5, d6, d7] := by
  simp only [digitsBE, digitsVal, List.foldl]
  refine List.cons_eq_cons.mpr ⟨by omega, ?_⟩
  refine List.cons_eq_cons.mpr ⟨by omega, ?_⟩
  refine List.cons_eq_cons.mpr ⟨by omega, ?_⟩
  refine List.cons_eq_cons.mpr ⟨by omega, ?_⟩
  refine List.cons_eq_cons.mpr ⟨by omega, ?_⟩
  refine List.cons_eq_cons.mpr ⟨by omega, ?_⟩
  refine List.cons_eq_cons.mpr ⟨by omega, ?_⟩
  refine List.cons_eq_cons.mpr ⟨by omega, rfl⟩

theorem digitsBE12_inv (d0 d1 d2 d3 d4 d5 d6 d7 d8 d9 d10 d11 : Nat) (h0 : d0 < 32) (h1 : d1 < 32) (h2 : d2 < 32) (h3 : d3 < 32) (h4 : d4 < 32) (h5 : d5 < 32) (h6 : d6 < 32) (h7 : d7 < 32) (h8 : d8 < 32) (h9 : d9 < 32) (h10 : d10 < 32) (h11 : d11 < 32) :
    digitsBE 12 (digitsVal [d0, d1, d2, d3, d4, d5, d6, d7, d8, d9, d10, d11]) = [d0, d1, d2, d3, d4, d5, d6, d7, d8, d9, d10, d11] := by
  simp only [digitsBE, digitsVal, List.foldl]
  refine List.cons_eq_cons.mpr ⟨by omega, ?_⟩
  refine List.cons_eq_cons.mpr ⟨by omega, ?_⟩
  refine List.cons_eq_cons.mpr ⟨by omega, ?_⟩
  refine List.cons_eq_cons.mpr ⟨by omega, ?_⟩
  refine List.cons_eq_cons.mpr ⟨by omega, ?_⟩
  refine List.cons_eq_cons.mpr ⟨by omega, ?_⟩
  refine List.cons_eq_cons.mpr ⟨by omega, ?_⟩
  refine List.cons_eq_cons.mpr ⟨by omega, ?_⟩
  refine List.cons_eq_cons.mpr ⟨by omega, ?_⟩
  refine List.cons_eq_cons.mpr ⟨by omega, ?_⟩
  refine List.cons_eq_cons.mpr ⟨by omega, ?_⟩
  refine List.cons_eq_cons.mpr ⟨by omega, rfl⟩

theorem encode_decode_bytes (a0 a1 a2 a3 a4 a5 a6 a7 a8 a9 a10 a11 a12 a13 a14 a15 a16 a17 a18 a19 a20 a21 a22 a23 a24 a25 : Nat)
    (hmem : ∀ b ∈ [a0, a1, a2, a3, a4, a5, a6, a7, a8, a9, a10, a11, a12, a13, a14, a15, a16, a17, a18, a19, a20, a21, a22, a23, a24, a25], b ∈ ENCODE)
    (h24 : dec a24 ≤ 15) (h25 : dec a25 ≤ 15) :
    decode [a0, a1, a2, a3, a4, a5, a6, a7, a8, a9, a10, a11, a12, a13, a14, a15, a16, a17, a18, a19, a20, a21, a22, a23, a24, a25] = some (Except.ok (digitsVal [dec a4, dec a5, dec a6, dec a7, dec a8, dec a9, dec a10, dec a11] * 2 ^ 88 + (digitsVal [dec a12, dec a13, dec a14, dec a15, dec a16, dec a17, dec a18, dec a19, dec a20, dec a21, dec a22, dec a23] * 16 + dec a24) * 2 ^ 24 + (digitsVal [dec a0, dec a1, dec a2, dec a3] * 16 + dec a25))) ∧
    encode (digitsVal [dec a4, dec a5, dec a6, dec a7, dec a8, dec a9, dec a10, dec a11] * 2 ^ 88 + (digitsVal [dec a12, dec a13, dec a14, dec a15, dec a16, dec a17, dec a18, dec a19, dec a20, dec a21, dec a22, dec a23] * 16 + dec a24) * 2 ^ 24 + (digitsVal [dec a0, dec a1, dec a2, dec a3] * 16 + dec a25)) = [a0, a1, a2, a3, 95, a4, a5, a6, a7, a8, a9, a10, a11, a12, a13, a14, a15, a16, a17, a18, a19, a20, a21, a22, a23, a24, a25] := by
  have hd0 : dec a0 < 32 := mem_dec_lt (hmem a0 (by simp))
  have hd1 : dec a1 < 32 := mem_dec_lt (hmem a1 (by simp))
  have hd2 : dec a2 < 32 := mem_dec_lt (hmem a2 (by simp))
  have hd3 : dec a3 < 32 := mem_dec_lt (hmem a3 (by simp))
  have hd4 : dec a4 < 32 := mem_dec_lt (hmem a4 (by simp))
  have hd5 : dec a5 < 32 := mem_dec_lt (hmem a5 (by simp))
  have hd6 : dec a6 < 32 := mem_dec_lt (hmem a6 (by simp))
  have hd7 : dec a7 < 32 := mem_dec_lt (hmem a7 (by simp))
  have hd8 : dec a8 < 32 := mem_dec_lt (hmem a8 (by simp))
  have hd9 : dec a9 < 32 := mem_dec_lt (hmem a9 (by simp))
  have hd10 : dec a10 < 32 := mem_dec_lt (hmem a10 (by simp))
  have hd11 : dec a11 < 32 := mem_dec_lt (hmem a11 (by simp))
  have hd12 : dec a12 < 32 := mem_dec_lt (hmem a12 (by simp))
  have hd13 : dec a13 < 32 := mem_dec_lt (hmem a13 (by simp))
  have hd14 : dec a14 < 32 := mem_dec_lt (hmem a14 (by simp))
  have hd15 : dec a15 < 32 := mem_dec_lt (hmem a15 (by simp))
  have hd16 : dec a16 < 32 := mem_dec_lt (hmem a16 (by simp))
  have hd17 : dec a17 < 32 := mem_dec_lt (hmem a17 (by simp))
  have hd18 : dec a18 < 32 := mem_dec_lt (hmem a18 (by simp))
  have hd19 : dec a19 < 32 := mem_dec_lt (hmem a19 (by simp))
  have hd20 : dec a20 < 32 := mem_dec_lt (hmem a20 (by simp))
  have hd21 : dec a21 < 32 := mem_dec_lt (hmem a21 (by simp))
  have hd22 : dec a22 < 32 := mem_dec_lt (hmem a22 (by simp))
  have hd23 : dec a23 < 32 := mem_dec_lt (hmem a23 (by simp))
  have hd24 : dec a24 < 32 := mem_dec_lt (hmem a24 (by simp))
  have hd25 : dec a25 < 32 := mem_dec_lt (hmem a25 (by simp))
  have hM : digitsVal [dec a4, dec a5, dec a6, dec a7, dec a8, dec a9, dec a10, dec a11] < 2 ^ 40 := by simp only [digitsVal, List.foldl]; omega
  have hR : (digitsVal [dec a12, dec a13, dec a14, dec a15, dec a16, dec a17, dec a18, dec a19, dec a20, dec a21, dec a22, dec a23] * 16 + dec a24) < 2 ^ 64 := by simp only [digitsVal, List.foldl]; omega
  have hP : (digitsVal [dec a0, dec a1, dec a2, dec a3] * 16 + dec a25) < 2 ^ 24 := by simp only [digitsVal, List.foldl]; omega
  constructor
  · rw [decode_chars26 a0 a1 a2 a3 a4 a5 a6 a7 a8 a9 a10 a11 a12 a13 a14 a15 a16 a17 a18 a19 a20 a21 a22 a23 a24 a25 hmem, if_neg (by omega), if_neg (by omega)]
  · generalize hu : digitsVal [dec a4, dec a5, dec a6, dec a7, dec a8, dec a9, dec a10, dec a11] * 2 ^ 88 + (digitsVal [dec a12, dec a13, dec a14, dec a15, dec a16, dec a17, dec a18, dec a19, dec a20, dec a21, dec a22, dec a23] * 16 + dec a24) * 2 ^ 24 + (digitsVal [dec a0, dec a1, dec a2, dec a3] * 16 + dec a25) = u
    rw [encode_chars u (by omega)]
    have hfT : u / 2 ^ 88 = digitsVal [dec a4, dec a5, dec a6, dec a7, dec a8, dec a9, dec a10, dec a11] := by omega
    have hfR : u / 2 ^ 24 % 2 ^ 64 / 16 = digitsVal [dec a12, dec a13, dec a14, dec a15, dec a16, dec a17, dec a18, dec a19, dec a20, dec a21, dec a22, dec a23] := by omega
    have hfR2 : u / 2 ^ 24 % 16 = dec a24 := by omega
    have hfP : u % 2 ^ 24 / 16 = digitsVal [dec a0, dec a1, dec a2, dec a3] := by omega
    have hfP2 : u % 16 = dec a25 := by omega
    rw [hfT, hfR, hfR2, hfP, hfP2]
    rw [digitsBE4_inv _ _ _ _ hd0 hd1 hd2 hd3,
      digitsBE8_inv _ _ _ _ _ _ _ _ hd4 hd5 hd6 hd7 hd8 hd9 hd10 hd11,
      digitsBE12_inv _ _ _ _ _ _ _ _ _ _ _ _ hd12 hd13 hd14 hd15 hd16 hd17 hd18 hd19 hd20 hd21 hd22 hd23]
    have hg0 : enc (dec a0) = a0 := enc_dec_mem (hmem a0 (by simp))
    have hg1 : enc (dec a1) = a1 := enc_dec_mem (hmem a1 (by simp))
    have hg2 : enc (dec a2) = a2 := enc_dec_mem (hmem a2 (by simp))
    have hg3 : enc (dec a3) = a3 := enc_dec_mem (hmem a3 (by simp))
    have hg4 : enc (dec a4) = a4 := enc_dec_mem (hmem a4 (by simp))
    have hg5 : enc (dec a5) = a5 := enc_dec_mem (hmem a5 (by simp))
    have hg6 : enc (dec a6) = a6 := enc_dec_mem (hmem a6 (by simp))
    have hg7 : enc (dec a7) = a7 := enc_dec_mem (hmem a7 (by simp))
    have hg8 : enc (dec a8) = a8 := enc_dec_mem (hmem a8 (by simp))
    have hg9 : enc (dec a9) = a9 := enc_dec_mem (hmem a9 (by simp))
    have hg10 : enc (dec a10) = a10 := enc_dec_mem (hmem a10 (by simp))
    have hg11 : enc (dec a11) = a11 := enc_dec_mem (hmem a11 (by simp))
    have hg12 : enc (dec a12) = a12 := enc_dec_mem (hmem a12 (by simp))
    have hg13 : enc (dec a13) = a13 := enc_dec_mem (hmem a13 (by simp))
    have hg14 : enc (dec a14) = a14 := enc_dec_mem (hmem a14 (by simp))
    have hg15 : enc (dec a15) = a15 := enc_dec_mem (hmem a15 (by simp))
    have hg16 : enc (dec a16) = a16 := enc_dec_mem (hmem a16 (by simp))
    have hg17 : enc (dec a17) = a17 := enc_dec_mem (hmem a17 (by simp))
    have hg18 : enc (dec a18) = a18 := enc_dec_mem (hmem a18 (by simp))
    have hg19 : enc (dec a19) = a19 := enc_dec_mem (hmem a19 (by simp))
    have hg20 : enc (dec a20) = a20 := enc_dec_mem (hmem a20 (by simp))
    have hg21 : enc (dec a21) = a21 := enc_dec_mem (hmem a21 (by simp))
    have hg22 : enc (dec a22) = a22 := enc_dec_mem (hmem a22 (by simp))
    have hg23 : enc (dec a23) = a23 := enc_dec_mem (hmem a23 (by simp))
    have hg24 : enc (dec a24) = a24 := enc_dec_mem (hmem a24 (by simp))
    have hg25 : enc (dec a25) = a25 := enc_dec_mem (hmem a25 (by simp))
    simp only [List.map, List.cons_append, List.nil_append, hg0, hg1, hg2, hg3, hg4, hg5, hg6, hg7, hg8, hg9, hg10, hg11, hg12, hg13, hg14, hg15, hg16, hg17, hg18, hg19, hg20, hg21, hg22, hg23, hg24, hg25]

theorem decode_time_total (y : List Nat) (h : 8 ≤ y.length) :
    ∃ r, decode_time y = some r := by
  unfold decode_time
  rw [get?_eq_getD (by omega : (0:Nat) < y.length), get?_eq_getD (by omega : (1:Nat) < y.length),
    get?_eq_getD (by omega : (2:Nat) < y.length), get?_eq_getD (by omega : (3:Nat) < y.length),
    get?_eq_getD (by omega : (4:Nat) < y.length), get?_eq_getD (by omega : (5:Nat) < y.length),
    get?_eq_getD (by omega : (6:Nat) < y.length), get?_eq_getD (by omega : (7:Nat) < y.length)]
  exact ⟨_, rfl⟩

theorem decode_prefix_total (y : List Nat) (h : 5 ≤ y.length) :
    ∃ r, decode_prefix y = some r := by
  unfold decode_prefix
  rw [get?_eq_getD (by omega : y.length - 1 < y.length),
    get?_eq_getD (by omega : (0:Nat) < y.length), get?_eq_getD (by omega : (1:Nat) < y.length),
    get?_eq_getD (by omega : (2:Nat) < y.length), get?_eq_getD (by omega : (3:Nat) < y.length),
    get?_eq_getD (by omega : (4:Nat) < y.length)]
  simp only []
  by_cases hl : dec (y.getD (y.length - 1) 0) > 15
  · exact ⟨_, by rw [if_pos hl]⟩
  · exact ⟨_, by rw [if_neg hl]⟩

theorem decode_rando_total (y : List Nat) (h : 13 ≤ y.length) :
    ∃ r, decode_rando y = some r := by
  unfold decode_rando
  rw [get?_eq_getD (by omega : y.length - 1 < y.length),
    get?_eq_getD (by omega : (0:Nat) < y.length), get?_eq_getD (by omega : (1:Nat) < y.length),
    get?_eq_getD (by omega : (2:Nat) < y.length), get?_eq_getD (by omega : (3:Nat) < y.length),
    get?_eq_getD (by omega : (4:Nat) < y.length), get?_eq_getD (by omega : (5:Nat) < y.length),
    get?_eq_getD (by omega : (6:Nat) < y.length), get?_eq_getD (by omega : (7:Nat) < y.length),
    get?_eq_getD (by omega : (8:Nat) < y.length), get?_eq_getD (by omega : (9:Nat) < y.length),
    get?_eq_getD (by omega : (10:Nat) < y.length), get?_eq_getD (by omega : (11:Nat) < y.length),
    get?_eq_getD (by omega : (12:Nat) < y.length)]
  simp only []
  by_cases hl : dec (y.getD (y.length - 1) 0) > 15
  · exact ⟨_, by rw [if_pos hl]⟩
  · exact ⟨_, by rw [if_neg hl]⟩

theorem decode_total (x : List Nat) : ∃ r, decode x = some r := by
  simp only [decode]
  by_cases h1 : (List.filter (fun b => decide (b ≠ 95)) x).length ≠ 26
  · rw [if_pos h1]
    exact ⟨_, rfl⟩
  · rw [if_neg h1]
    have hlen : (List.filter (fun b => decide (b ≠ 95)) x).length = 26 := by omega
    by_cases h2 : (List.filter (fun b => decide (b ≠ 95)) x).any
        (fun b => decide ¬ENCODE.contains b = true) = true
    · rw [if_pos h2]
      exact ⟨_, rfl⟩
    · rw [if_neg h2]
      rw [get?_eq_getD (by omega)]
      simp only []
      obtain ⟨rp, hp⟩ := decode_prefix_total
        ((List.filter (fun b => decide (b ≠ 95)) x).take 4 ++
          [(List.filter (fun b => decide (b ≠ 95)) x).getD
            ((List.filter (fun b => decide (b ≠ 95)) x).length - 1) 0])
        (by simp only [List.length_append, List.length_take, hlen]; rfl)
      rw [hp]
      rcases rp with e | pfx
      · exact ⟨_, rfl⟩
      · obtain ⟨rt, ht⟩ := decode_time_total
          (((List.filter (fun b => decide (b ≠ 95)) x).drop 4).take 8)
          (by simp only [List.length_take, List.length_drop, hlen]; rfl)
        rw [ht]
        rcases rt with e | time
        · exact ⟨_, rfl⟩
        · obtain ⟨rr, hr⟩ := decode_rando_total
            (((List.filter (fun b => decide (b ≠ 95)) x).drop 12).take 13)
            (by simp only [List.length_take, List.length_drop, hlen]; rfl)
          rw [hr]
          rcases rr with e | rando
          · exact ⟨_, rfl⟩
          · exact ⟨_, rfl⟩

theorem filter_utf8_comm (s : List Char) :
    (utf8 (s.filter (fun c => decide (c ≠ '_')))).filter (fun b => decide (b ≠ 95)) =
      (utf8 s).filter (fun b => decide (b ≠ 95)) := by
  induction s with
  | nil => rfl
  | cons c t ih =>
    rw [utf8_cons, List.filter_append, List.filter_cons]
    by_cases hc : c = '_'
    · subst hc
      rw [if_neg (by decide)]
      have h95 : utf8Bytes '_' = [95] := rfl
      rw [h95, show (List.filter (fun b => decide (b ≠ 95)) [95]) = [] from rfl]
      rw [List.nil_append]
      exact ih
    · rw [if_pos (decide_eq_true hc)]
      rw [utf8_cons, List.filter_append]
      rw [ih]

theorem decode_congr_filter {x y : List Nat}
    (h : x.filter (fun b => decide (b ≠ 95)) = y.filter (fun b => decide (b ≠ 95))) :
    decode x = decode y := by
  simp only [decode, h]

theorem decode_chars27 (b0 b1 b2 b3 : Nat) (rest : List Nat) :
    decode (b0 :: b1 :: b2 :: b3 :: 95 :: rest) = decode (b0 :: b1 :: b2 :: b3 :: rest) := by
  refine decode_congr_filter ?_
  have e1 : (b0 :: b1 :: b2 :: b3 :: (95 : Nat) :: rest) = [b0, b1, b2, b3] ++ 95 :: rest := rfl
  have e2 : (b0 :: b1 :: b2 :: b3 :: rest) = [b0, b1, b2, b3] ++ rest := rfl
  rw [e1, e2, List.filter_append, List.filter_append]
  have e3 : List.filter (fun b => decide (b ≠ 95)) ((95 : Nat) :: rest) =
      List.filter (fun b => decide (b ≠ 95)) rest := by
    rw [List.filter_cons]
    simp only [decide_not]
    rfl
  rw [e3]

theorem digitsVal_go : ∀ (ds : List Nat) (a : Nat),
    List.foldl (fun a d => a * 32 + d) a ds = a * 32 ^ ds.length + digitsVal ds := by
  intro ds
  induction ds with
  | nil =>
    intro a
    simp [digitsVal]
  | cons d t ih =>
    intro a
    simp only [List.foldl, List.length_cons, digitsVal]
    rw [ih (a * 32 + d), ih (0 * 32 + d)]
    ring

theorem digitsBE_length : ∀ (w N : Nat), (digitsBE w N).length = w := by
  intro w
  induction w with
  | zero =>
    intro N
    rfl
  | succ w ih =>
    intro N
    simp only [digitsBE, List.length_cons, ih]

theorem digitsBE_mod : ∀ (w N : Nat), digitsBE w (N % 32 ^ w) = digitsBE w N := by
  intro w
  induction w with
  | zero =>
    intro N
    rfl
  | succ w ih =>
    intro N
    simp only [digitsBE]
    have hsplit : (32 : Nat) ^ (w + 1) = 32 ^ w * 32 := Nat.pow_succ 32 w
    have h1 : (N % 32 ^ (w + 1)) % 32 ^ w = N % 32 ^ w :=
      Nat.mod_mod_of_dvd N ⟨32, hsplit⟩
    refine List.cons_eq_cons.mpr ⟨?_, ?_⟩
    · rw [hsplit, Nat.mod_mul_right_div_self]
      exact Nat.mod_mod_of_dvd _ (dvd_refl 32)
    · rw [← ih N, ← h1, ih (N % 32 ^ (w + 1))]

theorem digitsVal_digitsBE : ∀ (w N : Nat), N < 32 ^ w → digitsVal (digitsBE w N) = N := by
  intro w
  induction w with
  | zero =>
    intro N h
    simp only [Nat.pow_zero] at h
    have h0 : N = 0 := by omega
    subst h0
    rfl
  | succ w ih =>
    intro N h
    have hcons : digitsVal (digitsBE (w + 1) N) =
        (N / 32 ^ w % 32) * 32 ^ w + digitsVal (digitsBE w N) := by
      simp only [digitsBE]
      rw [show digitsVal ((N / 32 ^ w % 32) :: digitsBE w N) =
        List.foldl (fun a d => a * 32 + d) (0 * 32 + N / 32 ^ w % 32) (digitsBE w N) from rfl]
      rw [digitsVal_go (digitsBE w N) (0 * 32 + N / 32 ^ w % 32), digitsBE_length]
      ring
    rw [hcons, ← digitsBE_mod w N,
      ih (N % 32 ^ w) (Nat.mod_lt _ (Nat.pos_pow_of_pos w (by norm_num)))]
    have hlt : N / 32 ^ w < 32 := Nat.div_lt_of_lt_mul (by rw [← Nat.pow_succ]; exact h)
    rw [Nat.mod_eq_of_lt hlt, Nat.mul_comm]
    exact Nat.div_add_mod N (32 ^ w)

theorem digitsVal_time (w : Nat) (hw : w < 2 ^ 40) :
    digitsVal [w / 32 ^ 7 % 32, w / 32 ^ 6 % 32, w / 32 ^ 5 % 32, w / 32 ^ 4 % 32, w / 32 ^ 3 % 32, w / 32 ^ 2 % 32, w / 32 ^ 1 % 32, w / 32 ^ 0 % 32] = w := by
  have h : [w / 32 ^ 7 % 32, w / 32 ^ 6 % 32, w / 32 ^ 5 % 32, w / 32 ^ 4 % 32, w / 32 ^ 3 % 32, w / 32 ^ 2 % 32, w / 32 ^ 1 % 32, w / 32 ^ 0 % 32] = digitsBE 8 w := rfl
  rw [h]
  exact digitsVal_digitsBE 8 w (by rw [show (32 : Nat) ^ 8 = 2 ^ 40 from by norm_num]; exact hw)

theorem digitsVal_rando (w : Nat) (hw : w < 2 ^ 64) :
    digitsVal [w / 16 / 32 ^ 11 % 32, w / 16 / 32 ^ 10 % 32, w / 16 / 32 ^ 9 % 32, w / 16 / 32 ^ 8 % 32, w / 16 / 32 ^ 7 % 32, w / 16 / 32 ^ 6 % 32, w / 16 / 32 ^ 5 % 32, w / 16 / 32 ^ 4 % 32, w / 16 / 32 ^ 3 % 32, w / 16 / 32 ^ 2 % 32, w / 16 / 32 ^ 1 % 32, w / 16 / 32 ^ 0 % 32] * 16 + w % 16 = w := by
  have h : [w / 16 / 32 ^ 11 % 32, w / 16 / 32 ^ 10 % 32, w / 16 / 32 ^ 9 % 32, w / 16 / 32 ^ 8 % 32, w / 16 / 32 ^ 7 % 32, w / 16 / 32 ^ 6 % 32, w / 16 / 32 ^ 5 % 32, w / 16 / 32 ^ 4 % 32, w / 16 / 32 ^ 3 % 32, w / 16 / 32 ^ 2 % 32, w / 16 / 32 ^ 1 % 32, w / 16 / 32 ^ 0 % 32] = digitsBE 12 (w / 16) := rfl
  rw [h, digitsVal_digitsBE 12 (w / 16)
    (by rw [show (32 : Nat) ^ 12 = 2 ^ 60 from by norm_num]; omega)]
  omega

theorem digitsVal_pfx (w : Nat) (hw : w < 2 ^ 24) :
    digitsVal [w / 16 / 32 ^ 3 % 32, w / 16 / 32 ^ 2 % 32, w / 16 / 32 ^ 1 % 32, w / 16 / 32 ^ 0 % 32] * 16 + w % 16 = w := by
  have h : [w / 16 / 32 ^ 3 % 32, w / 16 / 32 ^ 2 % 32, w / 16 / 32 ^ 1 % 32, w / 16 / 32 ^ 0 % 32] = digitsBE 4 (w / 16) := rfl
  rw [h, digitsVal_digitsBE 4 (w / 16)
    (by rw [show (32 : Nat) ^ 4 = 2 ^ 20 from by norm_num]; omega)]
  omega

/-- Claim C1: the codec round-trips every 128-bit value: decoding the
encoding of any u128 value succeeds and returns the same value. -/
theorem decode_encode (v : Nat) (hv : v < 2 ^ 128) :
    decode (encode v) = some (Except.ok v) := by
  rw [encode_chars v hv]
  simp only [digitsBE, List.map, List.cons_append, List.nil_append]
  generalize hq0 : v % 2 ^ 24 / 16 / 32 ^ 3 % 32 = q0
  generalize hq1 : v % 2 ^ 24 / 16 / 32 ^ 2 % 32 = q1
  generalize hq2 : v % 2 ^ 24 / 16 / 32 ^ 1 % 32 = q2
  generalize hq3 : v % 2 ^ 24 / 16 / 32 ^ 0 % 32 = q3
  generalize hq4 : v / 2 ^ 88 / 32 ^ 7 % 32 = q4
  generalize hq5 : v / 2 ^ 88 / 32 ^ 6 % 32 = q5
  generalize hq6 : v / 2 ^ 88 / 32 ^ 5 % 32 = q6
  generalize hq7 : v / 2 ^ 88 / 32 ^ 4 % 32 = q7
  generalize hq8 : v / 2 ^ 88 / 32 ^ 3 % 32 = q8
  generalize hq9 : v / 2 ^ 88 / 32 ^ 2 % 32 = q9
  generalize hq10 : v / 2 ^ 88 / 32 ^ 1 % 32 = q10
  generalize hq11 : v / 2 ^ 88 / 32 ^ 0 % 32 = q11
  generalize hq12 : v / 2 ^ 24 % 2 ^ 64 / 16 / 32 ^ 11 % 32 = q12
  generalize hq13 : v / 2 ^ 24 % 2 ^ 64 / 16 / 32 ^ 10 % 32 = q13
  generalize hq14 : v / 2 ^ 24 % 2 ^ 64 / 16 / 32 ^ 9 % 32 = q14
  generalize hq15 : v / 2 ^ 24 % 2 ^ 64 / 16 / 32 ^ 8 % 32 = q15
  generalize hq16 : v / 2 ^ 24 % 2 ^ 64 / 16 / 32 ^ 7 % 32 = q16
  generalize hq17 : v / 2 ^ 24 % 2 ^ 64 / 16 / 32 ^ 6 % 32 = q17
  generalize hq18 : v / 2 ^ 24 % 2 ^ 64 / 16 / 32 ^ 5 % 32 = q18
  generalize hq19 : v / 2 ^ 24 % 2 ^ 64 / 16 / 32 ^ 4 % 32 = q19
  generalize hq20 : v / 2 ^ 24 % 2 ^ 64 / 16 / 32 ^ 3 % 32 = q20
  generalize hq21 : v / 2 ^ 24 % 2 ^ 64 / 16 / 32 ^ 2 % 32 = q21
  generalize hq22 : v / 2 ^ 24 % 2 ^ 64 / 16 / 32 ^ 1 % 32 = q22
  generalize hq23 : v / 2 ^ 24 % 2 ^ 64 / 16 / 32 ^ 0 % 32 = q23
  generalize hq24 : v / 2 ^ 24 % 16 = q24
  generalize hq25 : v % 16 = q25
  have hb0 : q0 < 32 := hq0 ▸ Nat.mod_lt _ (by norm_num)
  have hb1 : q1 < 32 := hq1 ▸ Nat.mod_lt _ (by norm_num)
  have hb2 : q2 < 32 := hq2 ▸ Nat.mod_lt _ (by norm_num)
  have hb3 : q3 < 32 := hq3 ▸ Nat.mod_lt _ (by norm_num)
  have hb4 : q4 < 32 := hq4 ▸ Nat.mod_lt _ (by norm_num)
  have hb5 : q5 < 32 := hq5 ▸ Nat.mod_lt _ (by norm_num)
  have hb6 : q6 < 32 := hq6 ▸ Nat.mod_lt _ (by norm_num)
  have hb7 : q7 < 32 := hq7 ▸ Nat.mod_lt _ (by norm_num)
  have hb8 : q8 < 32 := hq8 ▸ Nat.mod_lt _ (by norm_num)
  have hb9 : q9 < 32 := hq9 ▸ Nat.mod_lt _ (by norm_num)
  have hb10 : q10 < 32 := hq10 ▸ Nat.mod_lt _ (by norm_num)
  have hb11 : q11 < 32 := hq11 ▸ Nat.mod_lt _ (by norm_num)
  have hb12 : q12 < 32 := hq12 ▸ Nat.mod_lt _ (by norm_num)
  have hb13 : q13 < 32 := hq13 ▸ Nat.mod_lt _ (by norm_num)
  have hb14 : q14 < 32 := hq14 ▸ Nat.mod_lt _ (by norm_num)
  have hb15 : q15 < 32 := hq15 ▸ Nat.mod_lt _ (by norm_num)
  have hb16 : q16 < 32 := hq16 ▸ Nat.mod_lt _ (by norm_num)
  have hb17 : q17 < 32 := hq17 ▸ Nat.mod_lt _ (by norm_num)
  have hb18 : q18 < 32 := hq18 ▸ Nat.mod_lt _ (by norm_num)
  have hb19 : q19 < 32 := hq19 ▸ Nat.mod_lt _ (by norm_num)
  have hb20 : q20 < 32 := hq20 ▸ Nat.mod_lt _ (by norm_num)
  have hb21 : q21 < 32 := hq21 ▸ Nat.mod_lt _ (by norm_num)
  have hb22 : q22 < 32 := hq22 ▸ Nat.mod_lt _ (by norm_num)
  have hb23 : q23 < 32 := hq23 ▸ Nat.mod_lt _ (by norm_num)
  have hb24 : q24 < 32 := hq24 ▸ Nat.lt_of_lt_of_le (Nat.mod_lt _ (by norm_num)) (by norm_num)
  have hb25 : q25 < 32 := hq25 ▸ Nat.lt_of_lt_of_le (Nat.mod_lt _ (by norm_num)) (by norm_num)
  have hc24 : q24 < 16 := hq24 ▸ Nat.mod_lt _ (by norm_num)
  have hc25 : q25 < 16 := hq25 ▸ Nat.mod_lt _ (by norm_num)
  rw [decode_chars27]
  rw [decode_chars26 _ _ _ _ _ _ _ _ _ _ _ _ _ _ _ _ _ _ _ _ _ _ _ _ _ _ ?hmem]
  case hmem =>
    intro b hb
    simp only [List.mem_cons] at hb
    rcases hb with rfl | rfl | rfl | rfl | rfl | rfl | rfl | rfl | rfl | rfl | rfl | rfl | rfl | rfl | rfl | rfl | rfl | rfl | rfl | rfl | rfl | rfl | rfl | rfl | rfl | rfl | hb
    · exact enc_mem hb0
    · exact enc_mem hb1
    · exact enc_mem hb2
    · exact enc_mem hb3
    · exact enc_mem hb4
    · exact enc_mem hb5
    · exact enc_mem hb6
    · exact enc_mem hb7
    · exact enc_mem hb8
    · exact enc_mem hb9
    · exact enc_mem hb10
    · exact enc_mem hb11
    · exact enc_mem hb12
    · exact enc_mem hb13
    · exact enc_mem hb14
    · exact enc_mem hb15
    · exact enc_mem hb16
    · exact enc_mem hb17
    · exact enc_mem hb18
    · exact enc_mem hb19
    · exact enc_mem hb20
    · exact enc_mem hb21
    · exact enc_mem hb22
    · exact enc_mem hb23
    · exact enc_mem hb24
    · exact enc_mem hb25
    · exact absurd hb (List.not_mem_nil b)
  have he0 : dec (enc q0) = q0 := dec_enc hb0
  have he1 : dec (enc q1) = q1 := dec_enc hb1
  have he2 : dec (enc q2) = q2 := dec_enc hb2
  have he3 : dec (enc q3) = q3 := dec_enc hb3
  have he4 : dec (enc q4) = q4 := dec_enc hb4
  have he5 : dec (enc q5) = q5 := dec_enc hb5
  have he6 : dec (enc q6) = q6 := dec_enc hb6
  have he7 : dec (enc q7) = q7 := dec_enc hb7
  have he8 : dec (enc q8) = q8 := dec_enc hb8
  have he9 : dec (enc q9) = q9 := dec_enc hb9
  have he10 : dec (enc q10) = q10 := dec_enc hb10
  have he11 : dec (enc q11) = q11 := dec_enc hb11
  have he12 : dec (enc q12) = q12 := dec_enc hb12
  have he13 : dec (enc q13) = q13 := dec_enc hb13
  have he14 : dec (enc q14) = q14 := dec_enc hb14
  have he15 : dec (enc q15) = q15 := dec_enc hb15
  have he16 : dec (enc q16) = q16 := dec_enc hb16
  have he17 : dec (enc q17) = q17 := dec_enc hb17
  have he18 : dec (enc q18) = q18 := dec_enc hb18
  have he19 : dec (enc q19) = q19 := dec_enc hb19
  have he20 : dec (enc q20) = q20 := dec_enc hb20
  have he21 : dec (enc q21) = q21 := dec_enc hb21
  have he22 : dec (enc q22) = q22 := dec_enc hb22
  have he23 : dec (enc q23) = q23 := dec_enc hb23
  have he24 : dec (enc q24) = q24 := dec_enc hb24
  have he25 : dec (enc q25) = q25 := dec_enc hb25
  simp only [he0, he1, he2, he3, he4, he5, he6, he7, he8, he9, he10, he11, he12, he13, he14, he15, he16, he17, he18, he19, he20, he21, he22, he23, he24, he25]
  rw [if_neg (Nat.not_lt.mpr (Nat.lt_succ_iff.mp hc25)), if_neg (Nat.not_lt.mpr (Nat.lt_succ_iff.mp hc24))]
  refine congrArg (fun x => some (Except.ok x)) ?_
  rw [← hq0, ← hq1, ← hq2, ← hq3, ← hq4, ← hq5, ← hq6, ← hq7, ← hq8, ← hq9, ← hq10, ← hq11, ← hq12, ← hq13, ← hq14, ← hq15, ← hq16, ← hq17, ← hq18, ← hq19, ← hq20, ← hq21, ← hq22, ← hq23, ← hq24, ← hq25]
  have hT := digitsVal_time (v / 2 ^ 88) (by omega)
  have hR := digitsVal_rando (v / 2 ^ 24 % 2 ^ 64) (by omega)
  have hP := digitsVal_pfx (v % 2 ^ 24) (by omega)
  omega


theorem utf8_append (s t : List Char) : utf8 (s ++ t) = utf8 s ++ utf8 t := by
  simp [utf8]

theorem utf8Bytes_len_pos (c : Char) : 1 ≤ (utf8Bytes c).length := by
  unfold utf8Bytes
  dsimp only
  split_ifs <;> simp

theorem utf8_len_ge (s : List Char) : s.length ≤ (utf8 s).length := by
  induction s with
  | nil => simp [utf8]
  | cons c t ih =>
    rw [utf8_cons, List.length_append, List.length_cons]
    have := utf8Bytes_len_pos c
    omega

theorem utf8_forall {Q : Nat → Prop} {s : List Char}
    (h : ∀ c ∈ s, ∀ b ∈ utf8Bytes c, Q b) : ∀ b ∈ utf8 s, Q b := by
  induction s with
  | nil => intro b hb; simp [utf8] at hb
  | cons c t ih =>
    intro b hb
    rw [utf8_cons] at hb
    rcases List.mem_append.mp hb with hb | hb
    · exact h c (by simp) b hb
    · exact ih (fun x hx => h x (List.mem_cons_of_mem c hx)) b hb

theorem shl8_lt (a k : Nat) : shl8 a k < 256 := Nat.mod_lt _ (by norm_num)

theorem lt256_or {a b : Nat} (ha : a < 256) (hb : b < 256) : a ||| b < 256 := by
  have h := Nat.or_lt_two_pow (x := a) (y := b) (n := 8) (by omega) (by omega)
  omega

theorem shr_lt256 {x : Nat} (k : Nat) (h : x ≤ 255) : x >>> k < 256 := by
  rw [Nat.shiftRight_eq_div_pow]
  have := Nat.div_le_self x (2 ^ k)
  omega

theorem and15_lt256 (x : Nat) : x &&& 15 < 256 :=
  Nat.lt_of_le_of_lt Nat.and_le_right (by norm_num)

theorem getD_last97 (l : List Nat) :
    (l ++ [97]).getD ((l ++ [97]).length - 1) 0 = 97 := by
  have h : (l ++ [97]).length - 1 = l.length := by simp
  rw [h, List.getD_append_right l [97] 0 l.length (Nat.le_refl _)]
  simp

theorem fpm_spec (p : List Char) (ms r : Nat) :
    ∃ p0 p1 p2, p0 < 256 ∧ p1 < 256 ∧ p2 < 256 ∧
      from_prefix_and_milliseconds p ms r =
        some ((((ms >>> 8) <<< 88) % 2 ^ 128) ||| (((r % 2 ^ 64) <<< 24) % 2 ^ 128) |||
          ((p0 <<< 16) % 2 ^ 128) ||| ((p1 <<< 8) % 2 ^ 128) ||| (p2 % 2 ^ 128)) := by
  simp only [from_prefix_and_milliseconds]
  have ha : utf8 ((p ++ List.replicate (4 - p.length) 'z').take 4 ++ VERSION) =
      utf8 ((p ++ List.replicate (4 - p.length) 'z').take 4) ++ [97] := by
    rw [utf8_append]
    rfl
  have hlen4 : ((p ++ List.replicate (4 - p.length) 'z').take 4).length = 4 := by
    rw [List.length_take, List.length_append, List.length_replicate]
    omega
  have hge := utf8_len_ge ((p ++ List.replicate (4 - p.length) 'z').take 4)
  rw [hlen4] at hge
  have hlen : 5 ≤ (utf8 ((p ++ List.replicate (4 - p.length) 'z').take 4) ++ [97]).length := by
    rw [List.length_append]
    simp only [List.length_cons, List.length_nil]
    omega
  have hlast : dec ((utf8 ((p ++ List.replicate (4 - p.length) 'z').take 4) ++ [97]).getD
      ((utf8 ((p ++ List.replicate (4 - p.length) 'z').take 4) ++ [97]).length - 1) 0) ≤ 15 := by
    rw [getD_last97]
    decide
  rw [ha, decode_prefix_getD _ hlen hlast]
  simp only []
  refine ⟨_, _, _, lt256_or (shl8_lt _ _) (shr_lt256 2 (dec_le _)),
    lt256_or (lt256_or (shl8_lt _ _) (shl8_lt _ _)) (shr_lt256 4 (dec_le _)),
    lt256_or (shl8_lt _ _) (and15_lt256 _), rfl⟩

theorem res_eq_sum (tb rnd p0 p1 p2 : Nat) (hr : rnd < 2 ^ 64)
    (h0 : p0 < 256) (h1 : p1 < 256) (h2 : p2 < 256) :
    (((tb <<< 88) % 2 ^ 128) ||| ((rnd <<< 24) % 2 ^ 128) |||
      ((p0 <<< 16) % 2 ^ 128) ||| ((p1 <<< 8) % 2 ^ 128) ||| (p2 % 2 ^ 128)) =
      tb % 2 ^ 40 * 2 ^ 88 + rnd * 2 ^ 24 + p0 * 2 ^ 16 + p1 * 2 ^ 8 + p2 := by
  rw [shl88_mod, shl_mod_pow (by norm_num) (show rnd < 2 ^ 64 from hr),
    shl_mod_pow (by norm_num) (show p0 < 2 ^ 8 from h0),
    shl_mod_pow (by norm_num) (show p1 < 2 ^ 8 from h1),
    Nat.mod_eq_of_lt (show p2 < 2 ^ 128 by omega)]
  have o1 : tb % 2 ^ 40 * 2 ^ 88 ||| rnd * 2 ^ 24 = tb % 2 ^ 40 * 2 ^ 88 + rnd * 2 ^ 24 :=
    or_add_pow 88 (by omega) (by omega)
  rw [o1]
  have o2 : tb % 2 ^ 40 * 2 ^ 88 + rnd * 2 ^ 24 ||| p0 * 2 ^ 16 =
      tb % 2 ^ 40 * 2 ^ 88 + rnd * 2 ^ 24 + p0 * 2 ^ 16 := or_add_pow 24 (by omega) (by omega)
  rw [o2]
  have o3 : tb % 2 ^ 40 * 2 ^ 88 + rnd * 2 ^ 24 + p0 * 2 ^ 16 ||| p1 * 2 ^ 8 =
      tb % 2 ^ 40 * 2 ^ 88 + rnd * 2 ^ 24 + p0 * 2 ^ 16 + p1 * 2 ^ 8 :=
    or_add_pow 16 (by omega) (by omega)
  rw [o3]
  have o4 : tb % 2 ^ 40 * 2 ^ 88 + rnd * 2 ^ 24 + p0 * 2 ^ 16 + p1 * 2 ^ 8 ||| p2 =
      tb % 2 ^ 40 * 2 ^ 88 + rnd * 2 ^ 24 + p0 * 2 ^ 16 + p1 * 2 ^ 8 + p2 :=
    or_add_pow 8 (by omega) (by omega)
  rw [o4]

theorem prefixField_sum (tb rnd p0 p1 p2 : Nat) (hr : rnd < 2 ^ 64)
    (h0 : p0 < 256) (h1 : p1 < 256) (h2 : p2 < 256) :
    prefixField (tb % 2 ^ 40 * 2 ^ 88 + rnd * 2 ^ 24 + p0 * 2 ^ 16 + p1 * 2 ^ 8 + p2) =
      (Prod.fst ( encode_prefix [p0, p1, p2])) := by
  generalize hu : tb % 2 ^ 40 * 2 ^ 88 + rnd * 2 ^ 24 + p0 * 2 ^ 16 + p1 * 2 ^ 8 + p2 = u
  have htb : tb % 2 ^ 40 < 2 ^ 40 := Nat.mod_lt _ (by norm_num)
  unfold prefixField
  rw [to_be_bytes_eq]
  rw [show (List.drop 13 [u >>> 120 % 256, u >>> 112 % 256, u >>> 104 % 256, u >>> 96 % 256,
      u >>> 88 % 256, u >>> 80 % 256, u >>> 72 % 256, u >>> 64 % 256, u >>> 56 % 256,
      u >>> 48 % 256, u >>> 40 % 256, u >>> 32 % 256, u >>> 24 % 256, u >>> 16 % 256,
      u >>> 8 % 256, u >>> 0 % 256] : List Nat) =
    [u >>> 16 % 256, u >>> 8 % 256, u >>> 0 % 256] from rfl]
  have e0 : u >>> 16 % 256 = p0 := by
    rw [Nat.shiftRight_eq_div_pow]
    omega
  have e1 : u >>> 8 % 256 = p1 := by
    rw [Nat.shiftRight_eq_div_pow]
    omega
  have e2 : u >>> 0 % 256 = p2 := by
    rw [Nat.shiftRight_eq_div_pow]
    omega
  rw [e0, e1, e2]


theorem zdigits {d0 d1 d2 d3 : Nat} (x : Nat)
    (h0 : d0 = 31 ∨ d0 = 255) (h1 : d1 = 31 ∨ d1 = 255)
    (h2 : d2 = 31 ∨ d2 = 255) (h3 : d3 = 31 ∨ d3 = 255) :
    shl8 d0 3 ||| (d1 >>> 2) = 255 ∧
    shl8 d1 6 ||| shl8 d2 1 ||| (d3 >>> 4) = 255 ∧
    shl8 d3 4 ||| (x &&& 15) = 240 ||| (x &&& 15) := by
  rcases h0 with rfl | rfl <;> rcases h1 with rfl | rfl <;> rcases h2 with rfl | rfl <;>
    rcases h3 with rfl | rfl <;> exact ⟨by decide, by decide, rfl⟩

theorem zfinal {x : Nat} (hx : x ≤ 255) :
    Prod.fst ( encode_prefix [255, 255, 240 ||| (x &&& 15)]) = [122, 122, 122, 122] :=
  (by decide : ∀ x : Fin 256,
    Prod.fst ( encode_prefix [255, 255, 240 ||| (x.val &&& 15)]) = [122, 122, 122, 122])
    ⟨x, by omega⟩

theorem getD_mem_of_lt {l : List Nat} {i : Nat} (h : i < l.length) : l.getD i 0 ∈ l := by
  rw [List.getD_eq_getElem l 0 h]
  exact List.getElem_mem h

theorem fpm_prefix_alpha (p : List Char) (ms r : Nat) (c0 c1 c2 c3 : Char)
    (htake : (p ++ List.replicate (4 - p.length) 'z').take 4 = [c0, c1, c2, c3])
    (h0 : c0 ∈ ALPHABET) (h1 : c1 ∈ ALPHABET) (h2 : c2 ∈ ALPHABET) (h3 : c3 ∈ ALPHABET) :
    ∃ u, from_prefix_and_milliseconds p ms r = some u ∧
      prefixField u = [c0.toNat, c1.toNat, c2.toNat, c3.toNat] := by
  simp only [from_prefix_and_milliseconds]
  rw [htake]
  have hu8 : utf8 ([c0, c1, c2, c3] ++ VERSION) =
      [c0.toNat, c1.toNat, c2.toNat, c3.toNat, 97] := by
    have he : ([c0, c1, c2, c3] ++ VERSION) = [c0, c1, c2, c3, 'a'] := rfl
    rw [he, utf8_alpha]
    · rfl
    · intro c hc
      simp only [List.mem_cons] at hc
      rcases hc with rfl | rfl | rfl | rfl | rfl | hc
      · exact h0
      · exact h1
      · exact h2
      · exact h3
      · decide
      · exact absurd hc (List.not_mem_nil c)
  have hd0 : dec c0.toNat < 32 := mem_dec_lt (alpha_toNat_mem h0)
  have hd1 : dec c1.toNat < 32 := mem_dec_lt (alpha_toNat_mem h1)
  have hd2 : dec c2.toNat < 32 := mem_dec_lt (alpha_toNat_mem h2)
  have hd3 : dec c3.toNat < 32 := mem_dec_lt (alpha_toNat_mem h3)
  rw [hu8, decode_prefix_chars c0.toNat c1.toNat c2.toNat c3.toNat 97 hd0 hd1 hd2 hd3 (by decide)]
  simp only []
  have hdv : digitsVal [dec c0.toNat, dec c1.toNat, dec c2.toNat, dec c3.toNat] < 2 ^ 20 := by
    simp only [digitsVal, List.foldl]
    omega
  generalize hP : digitsVal [dec c0.toNat, dec c1.toNat, dec c2.toNat, dec c3.toNat] * 16 +
    dec 97 = P
  have hd97 : dec 97 = 6 := rfl
  have hPlt : P < 2 ^ 24 := by rw [← hP, hd97]; omega
  rw [show (bytes3 P).getD 0 0 = P / 2 ^ 16 % 256 from rfl,
    show (bytes3 P).getD 1 0 = P / 2 ^ 8 % 256 from rfl,
    show (bytes3 P).getD 2 0 = P % 256 from rfl]
  refine ⟨_, rfl, ?_⟩
  rw [res_eq_sum _ _ _ _ _ (Nat.mod_lt _ (by norm_num)) (by omega) (by omega) (by omega)]
  rw [prefixField_sum _ _ _ _ _ (Nat.mod_lt _ (by norm_num)) (by omega) (by omega) (by omega)]
  rw [encode_prefix_chars _ _ _ (by omega) (by omega) (by omega)]
  have hX : (P / 2 ^ 16 % 256 * 2 ^ 16 + P / 2 ^ 8 % 256 * 2 ^ 8 + P % 256) / 16 =
      digitsVal [dec c0.toNat, dec c1.toNat, dec c2.toNat, dec c3.toNat] := by
    rw [← hP, hd97]
    omega
  rw [hX, digitsBE4_inv _ _ _ _ hd0 hd1 hd2 hd3]
  simp only [List.map]
  rw [enc_dec_mem (alpha_toNat_mem h0), enc_dec_mem (alpha_toNat_mem h1),
    enc_dec_mem (alpha_toNat_mem h2), enc_dec_mem (alpha_toNat_mem h3)]

theorem fpm_prefix_invalid (p : List Char) (ms r : Nat)
    (hinv : ∀ c ∈ p, c ∉ ALPHABET) :
    ∃ u, from_prefix_and_milliseconds p ms r = some u ∧
      prefixField u = [122, 122, 122, 122] := by
  simp only [from_prefix_and_milliseconds]
  have ha : utf8 ((p ++ List.replicate (4 - p.length) 'z').take 4 ++ VERSION) =
      utf8 ((p ++ List.replicate (4 - p.length) 'z').take 4) ++ [97] := by
    rw [utf8_append]
    rfl
  have hlen4 : ((p ++ List.replicate (4 - p.length) 'z').take 4).length = 4 := by
    rw [List.length_take, List.length_append, List.length_replicate]
    omega
  have hge := utf8_len_ge ((p ++ List.replicate (4 - p.length) 'z').take 4)
  rw [hlen4] at hge
  have hlen : 5 ≤ (utf8 ((p ++ List.replicate (4 - p.length) 'z').take 4) ++ [97]).length := by
    rw [List.length_append]
    simp only [List.length_cons, List.length_nil]
    omega
  have hlast : dec ((utf8 ((p ++ List.replicate (4 - p.length) 'z').take 4) ++ [97]).getD
      ((utf8 ((p ++ List.replicate (4 - p.length) 'z').take 4) ++ [97]).length - 1) 0) ≤ 15 := by
    rw [getD_last97]
    decide
  rw [ha, decode_prefix_getD _ hlen hlast]
  simp only []
  have hQ : ∀ b ∈ utf8 ((p ++ List.replicate (4 - p.length) 'z').take 4),
      dec b = 31 ∨ dec b = 255 := by
    refine utf8_forall ?_
    intro c hc b hb
    have hc2 := List.take_subset 4 _ hc
    rcases List.mem_append.mp hc2 with hc3 | hc3
    · right
      exact utf8Bytes_dec255 (hinv c hc3) b hb
    · left
      have hz : c = 'z' := List.eq_of_mem_replicate hc3
      subst hz
      have hb2 : b = 122 := by
        have : utf8Bytes 'z' = [122] := rfl
        rw [this] at hb
        simpa using hb
      subst hb2
      rfl
  have hget : ∀ i, i < 4 →
      dec ((utf8 ((p ++ List.replicate (4 - p.length) 'z').take 4) ++ [97]).getD i 0) = 31 ∨
      dec ((utf8 ((p ++ List.replicate (4 - p.length) 'z').take 4) ++ [97]).getD i 0) = 255 := by
    intro i hi
    rw [List.getD_append _ _ _ _ (by omega)]
    exact hQ _ (getD_mem_of_lt (by omega))
  obtain ⟨hz1, hz2, hz3⟩ := zdigits
    (dec ((utf8 ((p ++ List.replicate (4 - p.length) 'z').take 4) ++ [97]).getD 4 0))
    (hget 0 (by omega)) (hget 1 (by omega)) (hget 2 (by omega)) (hget 3 (by omega))
  rw [hz1, hz2, hz3]
  generalize hx : dec ((utf8 ((p ++ List.replicate (4 - p.length) 'z').take 4) ++ [97]).getD 4 0) = x
  have hxle : x ≤ 255 := hx ▸ dec_le _
  rw [show ([255, 255, 240 ||| (x &&& 15)] : List Nat).getD 0 0 = 255 from rfl,
    show ([255, 255, 240 ||| (x &&& 15)] : List Nat).getD 1 0 = 255 from rfl,
    show ([255, 255, 240 ||| (x &&& 15)] : List Nat).getD 2 0 = 240 ||| (x &&& 15) from rfl]
  refine ⟨_, rfl, ?_⟩
  rw [res_eq_sum _ _ _ _ _ (Nat.mod_lt _ (by norm_num)) (by norm_num) (by norm_num)
    (lt256_or (by norm_num) (and15_lt256 _))]
  rw [prefixField_sum _ _ _ _ _ (Nat.mod_lt _ (by norm_num)) (by norm_num) (by norm_num)
    (lt256_or (by norm_num) (and15_lt256 _))]
  exact zfinal hxle

theorem list4 (p : List Char) (h : p.length = 4) : ∃ c0 c1 c2 c3, p = [c0, c1, c2, c3] := by
  rcases p with _ | ⟨c0, p⟩
  · simp at h
  rcases p with _ | ⟨c1, p⟩
  · simp at h
  rcases p with _ | ⟨c2, p⟩
  · simp at h
  rcases p with _ | ⟨c3, p⟩
  · simp at h
  rcases p with _ | ⟨c4, p⟩
  · exact ⟨c0, c1, c2, c3, rfl⟩
  · simp at h

/-- Claim C7: construction never fails: for every prefix string, timestamp
and random draw, from_prefix_and_milliseconds returns a value (the expect
branch on decode_prefix is unreachable because the appended version
character decodes below 16). -/
theorem from_prefix_total (p : List Char) (ms r : Nat) :
    ∃ u, from_prefix_and_milliseconds p ms r = some u := by
  obtain ⟨p0, p1, p2, h0, h1, h2, h⟩ := fpm_spec p ms r
  exact ⟨_, h⟩

/-- Claim C8: for every prefix, random draw and milliseconds value below
2^48, the milliseconds accessor of the constructed identifier recovers the
timestamp rounded down to a multiple of 256, so it differs from the input
by less than 256. -/
theorem milliseconds_of_construct (p : List Char) (ms r : Nat) (hms : ms < 2 ^ 48)
    (u : Nat) (hu : from_prefix_and_milliseconds p ms r = some u) :
    milliseconds u = (ms >>> 8) <<< 8 ∧ ms - milliseconds u < 256 := by
  obtain ⟨p0, p1, p2, h0, h1, h2, heq⟩ := fpm_spec p ms r
  rw [heq] at hu
  have hueq : u = (((ms >>> 8) <<< 88) % 2 ^ 128) ||| (((r % 2 ^ 64) <<< 24) % 2 ^ 128) |||
      ((p0 <<< 16) % 2 ^ 128) ||| ((p1 <<< 8) % 2 ^ 128) ||| (p2 % 2 ^ 128) :=
    (Option.some.inj hu).symm
  subst hueq
  rw [res_eq_sum _ _ _ _ _ (Nat.mod_lt _ (by norm_num)) h0 h1 h2]
  have hmain : milliseconds ((ms >>> 8) % 2 ^ 40 * 2 ^ 88 + r % 2 ^ 64 * 2 ^ 24 +
      p0 * 2 ^ 16 + p1 * 2 ^ 8 + p2) = (ms >>> 8) <<< 8 := by
    unfold milliseconds
    simp only [Nat.shiftRight_eq_div_pow, Nat.shiftLeft_eq]
    omega
  refine ⟨hmain, ?_⟩
  rw [hmain, Nat.shiftRight_eq_div_pow, Nat.shiftLeft_eq]
  omega

/-- Claim C5: prefix normalization: an alphabet prefix of exactly 4
characters is kept verbatim, a shorter alphabet prefix is right-padded with
z, a longer prefix is cut to its first 4 characters, and a prefix made only
of characters outside the alphabet is stored as zzzz. -/
theorem prefix_normalization_cases :
    (∀ p ms r, p.length = 4 → (∀ c ∈ p, c ∈ ALPHABET) →
      ∃ u, from_prefix_and_milliseconds p ms r = some u ∧
        prefixField u = p.map Char.toNat) ∧
    (∀ p ms r, p.length < 4 → (∀ c ∈ p, c ∈ ALPHABET) →
      ∃ u, from_prefix_and_milliseconds p ms r = some u ∧
        prefixField u = (p ++ List.replicate (4 - p.length) 'z').map Char.toNat) ∧
    (∀ p ms r, 4 < p.length → (∀ c ∈ p.take 4, c ∈ ALPHABET) →
      ∃ u, from_prefix_and_milliseconds p ms r = some u ∧
        prefixField u = (p.take 4).map Char.toNat) ∧
    (∀ p ms r, (∀ c ∈ p, c ∉ ALPHABET) →
      ∃ u, from_prefix_and_milliseconds p ms r = some u ∧
        prefixField u = [122, 122, 122, 122]) := by
  refine ⟨?_, ?_, ?_, ?_⟩
  · intro p ms r hlen halpha
    obtain ⟨c0, c1, c2, c3, rfl⟩ := list4 p hlen
    obtain ⟨u, h1, h2⟩ := fpm_prefix_alpha [c0, c1, c2, c3] ms r c0 c1 c2 c3 rfl
      (halpha c0 (by simp)) (halpha c1 (by simp)) (halpha c2 (by simp)) (halpha c3 (by simp))
    exact ⟨u, h1, by rw [h2]; rfl⟩
  · intro p ms r hlen halpha
    rcases p with _ | ⟨c0, p⟩
    · obtain ⟨u, h1, h2⟩ := fpm_prefix_alpha [] ms r 'z' 'z' 'z' 'z' rfl
        (by decide) (by decide) (by decide) (by decide)
      exact ⟨u, h1, by rw [h2]; rfl⟩
    rcases p with _ | ⟨c1, p⟩
    · obtain ⟨u, h1, h2⟩ := fpm_prefix_alpha [c0] ms r c0 'z' 'z' 'z' rfl
        (halpha c0 (by simp)) (by decide) (by decide) (by decide)
      exact ⟨u, h1, by rw [h2]; rfl⟩
    rcases p with _ | ⟨c2, p⟩
    · obtain ⟨u, h1, h2⟩ := fpm_prefix_alpha [c0, c1] ms r c0 c1 'z' 'z' rfl
        (halpha c0 (by simp)) (halpha c1 (by simp)) (by decide) (by decide)
      exact ⟨u, h1, by rw [h2]; rfl⟩
    rcases p with _ | ⟨c3, p⟩
    · obtain ⟨u, h1, h2⟩ := fpm_prefix_alpha [c0, c1, c2] ms r c0 c1 c2 'z' rfl
        (halpha c0 (by simp)) (halpha c1 (by simp)) (halpha c2 (by simp)) (by decide)
      exact ⟨u, h1, by rw [h2]; rfl⟩
    · simp only [List.length_cons] at hlen
      omega
  · intro p ms r hlen halpha
    rcases p with _ | ⟨c0, p⟩
    · simp at hlen
    rcases p with _ | ⟨c1, p⟩
    · simp at hlen
    rcases p with _ | ⟨c2, p⟩
    · simp at hlen
    rcases p with _ | ⟨c3, p⟩
    · simp at hlen
    have ht : (c0 :: c1 :: c2 :: c3 :: p).take 4 = [c0, c1, c2, c3] := rfl
    rw [ht] at halpha
    have h40 : 4 - (c0 :: c1 :: c2 :: c3 :: p).length = 0 := by
      simp only [List.length_cons]
      omega
    have htake : ((c0 :: c1 :: c2 :: c3 :: p) ++
        List.replicate (4 - (c0 :: c1 :: c2 :: c3 :: p).length) 'z').take 4 =
        [c0, c1, c2, c3] := by
      rw [h40]
      rfl
    obtain ⟨u, h1, h2⟩ := fpm_prefix_alpha (c0 :: c1 :: c2 :: c3 :: p) ms r c0 c1 c2 c3 htake
      (halpha c0 (by simp)) (halpha c1 (by simp)) (halpha c2 (by simp)) (halpha c3 (by simp))
    refine ⟨u, h1, ?_⟩
    rw [h2, ht]
    rfl
  · intro p ms r h
    exact fpm_prefix_invalid p ms r h


theorem list26 {α : Type} (e : List α) (h : e.length = 26) :
    ∃ c0 c1 c2 c3 c4 c5 c6 c7 c8 c9 c10 c11 c12 c13 c14 c15 c16 c17 c18 c19 c20 c21 c22 c23 c24 c25,
      e = [c0, c1, c2, c3, c4, c5, c6, c7, c8, c9, c10, c11, c12, c13, c14, c15, c16, c17, c18, c19, c20, c21, c22, c23, c24, c25] := by
  rcases e with _ | ⟨c0, e⟩
  · simp at h
  rcases e with _ | ⟨c1, e⟩
  · simp at h
  rcases e with _ | ⟨c2, e⟩
  · simp at h
  rcases e with _ | ⟨c3, e⟩
  · simp at h
  rcases e with _ | ⟨c4, e⟩
  · simp at h
  rcases e with _ | ⟨c5, e⟩
  · simp at h
  rcases e with _ | ⟨c6, e⟩
  · simp at h
  rcases e with _ | ⟨c7, e⟩
  · simp at h
  rcases e with _ | ⟨c8, e⟩
  · simp at h
  rcases e with _ | ⟨c9, e⟩
  · simp at h
  rcases e with _ | ⟨c10, e⟩
  · simp at h
  rcases e with _ | ⟨c11, e⟩
  · simp at h
  rcases e with _ | ⟨c12, e⟩
  · simp at h
  rcases e with _ | ⟨c13, e⟩
  · simp at h
  rcases e with _ | ⟨c14, e⟩
  · simp at h
  rcases e with _ | ⟨c15, e⟩
  · simp at h
  rcases e with _ | ⟨c16, e⟩
  · simp at h
  rcases e with _ | ⟨c17, e⟩
  · simp at h
  rcases e with _ | ⟨c18, e⟩
  · simp at h
  rcases e with _ | ⟨c19, e⟩
  · simp at h
  rcases e with _ | ⟨c20, e⟩
  · simp at h
  rcases e with _ | ⟨c21, e⟩
  · simp at h
  rcases e with _ | ⟨c22, e⟩
  · simp at h
  rcases e with _ | ⟨c23, e⟩
  · simp at h
  rcases e with _ | ⟨c24, e⟩
  · simp at h
  rcases e with _ | ⟨c25, e⟩
  · simp at h
  rcases e with _ | ⟨c26, e⟩
  · exact ⟨c0, c1, c2, c3, c4, c5, c6, c7, c8, c9, c10, c11, c12, c13, c14, c15, c16, c17, c18, c19, c20, c21, c22, c23, c24, c25, rfl⟩
  · simp at h

/-- Claim C2 (amended): for an input whose symbols after separator removal
are 26 alphabet characters, decode fails with Overflow exactly when the
version character (the 26th symbol) or the last randomness character (the
25th symbol) decodes to an alphabet index of 16 or more, and succeeds
otherwise. -/
theorem overflow_characterization (s : List Char)
    (hlen : (s.filter (fun c => c ≠ '_')).length = 26)
    (halpha : ∀ c ∈ s.filter (fun c => c ≠ '_'), c ∈ ALPHABET) :
    (decodeStr s = some (Except.error DecodeError.Overflow) ↔
      16 ≤ dec ((s.filter (fun c => c ≠ '_')).getD 25 'a').toNat ∨
      16 ≤ dec ((s.filter (fun c => c ≠ '_')).getD 24 'a').toNat) ∧
    (dec ((s.filter (fun c => c ≠ '_')).getD 25 'a').toNat < 16 →
      dec ((s.filter (fun c => c ≠ '_')).getD 24 'a').toNat < 16 →
      ∃ v, decodeStr s = some (Except.ok v)) := by
  have hds : decodeStr s = decode (utf8 (s.filter (fun c => c ≠ '_'))) :=
    (decode_congr_filter (filter_utf8_comm s)).symm
  obtain ⟨c0, c1, c2, c3, c4, c5, c6, c7, c8, c9, c10, c11, c12, c13, c14, c15, c16, c17, c18, c19, c20, c21, c22, c23, c24, c25, he⟩ := list26 (s.filter (fun c => c ≠ '_')) hlen
  rw [he] at halpha ⊢
  rw [hds, he, utf8_alpha halpha]
  simp only [List.map]
  rw [decode_chars26 _ _ _ _ _ _ _ _ _ _ _ _ _ _ _ _ _ _ _ _ _ _ _ _ _ _ ?hmem]
  case hmem =>
    intro b hb
    simp only [List.mem_cons] at hb
    rcases hb with rfl | rfl | rfl | rfl | rfl | rfl | rfl | rfl | rfl | rfl | rfl | rfl | rfl | rfl | rfl | rfl | rfl | rfl | rfl | rfl | rfl | rfl | rfl | rfl | rfl | rfl | hb
    · exact alpha_toNat_mem (halpha c0 (by simp))
    · exact alpha_toNat_mem (halpha c1 (by simp))
    · exact alpha_toNat_mem (halpha c2 (by simp))
    · exact alpha_toNat_mem (halpha c3 (by simp))
    · exact alpha_toNat_mem (halpha c4 (by simp))
    · exact alpha_toNat_mem (halpha c5 (by simp))
    · exact alpha_toNat_mem (halpha c6 (by simp))
    · exact alpha_toNat_mem (halpha c7 (by simp))
    · exact alpha_toNat_mem (halpha c8 (by simp))
    · exact alpha_toNat_mem (halpha c9 (by simp))
    · exact alpha_toNat_mem (halpha c10 (by simp))
    · exact alpha_toNat_mem (halpha c11 (by simp))
    · exact alpha_toNat_mem (halpha c12 (by simp))
    · exact alpha_toNat_mem (halpha c13 (by simp))
    · exact alpha_toNat_mem (halpha c14 (by simp))
    · exact alpha_toNat_mem (halpha c15 (by simp))
    · exact alpha_toNat_mem (halpha c16 (by simp))
    · exact alpha_toNat_mem (halpha c17 (by simp))
    · exact alpha_toNat_mem (halpha c18 (by simp))
    · exact alpha_toNat_mem (halpha c19 (by simp))
    · exact alpha_toNat_mem (halpha c20 (by simp))
    · exact alpha_toNat_mem (halpha c21 (by simp))
    · exact alpha_toNat_mem (halpha c22 (by simp))
    · exact alpha_toNat_mem (halpha c23 (by simp))
    · exact alpha_toNat_mem (halpha c24 (by simp))
    · exact alpha_toNat_mem (halpha c25 (by simp))
    · exact absurd hb (List.not_mem_nil b)
  rw [show ([c0, c1, c2, c3, c4, c5, c6, c7, c8, c9, c10, c11, c12, c13, c14, c15, c16, c17, c18, c19, c20, c21, c22, c23, c24, c25] : List Char).getD 25 'a' = c25 from rfl,
    show ([c0, c1, c2, c3, c4, c5, c6, c7, c8, c9, c10, c11, c12, c13, c14, c15, c16, c17, c18, c19, c20, c21, c22, c23, c24, c25] : List Char).getD 24 'a' = c24 from rfl]
  by_cases h25 : dec c25.toNat > 15
  · rw [if_pos h25]
    exact ⟨⟨fun hh => Or.inl (by omega), fun hh => rfl⟩,
      fun hc25 hc24 => absurd hc25 (by omega)⟩
  · rw [if_neg h25]
    by_cases h24 : dec c24.toNat > 15
    · rw [if_pos h24]
      exact ⟨⟨fun hh => Or.inr (by omega), fun hh => rfl⟩,
        fun hc25 hc24 => absurd hc24 (by omega)⟩
    · rw [if_neg h24]
      exact ⟨⟨fun hh => absurd hh (by simp), fun hh => absurd hh (by omega)⟩,
        fun hc25 hc24 => ⟨_, rfl⟩⟩

theorem overflow_characterization_witness :
    ((decodeStr ['2', '2', '2', '2', '2', '2', '2', '2', '2', '2', '2', '2', '2', '2', '2', '2', '2', '2', '2', '2', '2', '2', '2', '2', '2', '2'] = some (Except.error DecodeError.Overflow) ↔
      16 ≤ dec (((['2', '2', '2', '2', '2', '2', '2', '2', '2', '2', '2', '2', '2', '2', '2', '2', '2', '2', '2', '2', '2', '2', '2', '2', '2', '2'] : List Char).filter (fun c => c ≠ '_')).getD 25 'a').toNat ∨
      16 ≤ dec (((['2', '2', '2', '2', '2', '2', '2', '2', '2', '2', '2', '2', '2', '2', '2', '2', '2', '2', '2', '2', '2', '2', '2', '2', '2', '2'] : List Char).filter (fun c => c ≠ '_')).getD 24 'a').toNat) ∧
    (dec (((['2', '2', '2', '2', '2', '2', '2', '2', '2', '2', '2', '2', '2', '2', '2', '2', '2', '2', '2', '2', '2', '2', '2', '2', '2', '2'] : List Char).filter (fun c => c ≠ '_')).getD 25 'a').toNat < 16 →
      dec (((['2', '2', '2', '2', '2', '2', '2', '2', '2', '2', '2', '2', '2', '2', '2', '2', '2', '2', '2', '2', '2', '2', '2', '2', '2', '2'] : List Char).filter (fun c => c ≠ '_')).getD 24 'a').toNat < 16 →
      ∃ v, decodeStr ['2', '2', '2', '2', '2', '2', '2', '2', '2', '2', '2', '2', '2', '2', '2', '2', '2', '2', '2', '2', '2', '2', '2', '2', '2', '2'] = some (Except.ok v))) :=
  overflow_characterization ['2', '2', '2', '2', '2', '2', '2', '2', '2', '2', '2', '2', '2', '2', '2', '2', '2', '2', '2', '2', '2', '2', '2', '2', '2', '2'] (by decide) (by decide)

/-- The original claim is false at the 4th symbol: here the 4th symbol
decodes to index 31 (at least 16), yet decode succeeds instead of failing
with Overflow, because the source checks the 26th symbol, not the 4th. -/
theorem overflow_counterexample :
    16 ≤ dec (((['z', 'z', 'z', 'z', '2', '2', '2', '2', '2', '2', '2', '2', '2', '2', '2', '2', '2', '2', '2', '2', '2', '2', '2', '2', '2', '2'] : List Char).filter (fun c => c ≠ '_')).getD 3 'a').toNat ∧
    decodeStr ['z', 'z', 'z', 'z', '2', '2', '2', '2', '2', '2', '2', '2', '2', '2', '2', '2', '2', '2', '2', '2', '2', '2', '2', '2', '2', '2'] = some (Except.ok 16777200) := by
  exact ⟨by decide, by decide⟩

/-- Claim C3 (amended): for a 26-character string of alphabet characters
whose 25th and 26th characters decode below 16, decode succeeds, and
re-encoding yields exactly the original string with the separator
underscore inserted between the 4th and 5th characters. -/
theorem roundtrip_encode_decode (s : List Char) (hlen : s.length = 26)
    (halpha : ∀ c ∈ s, c ∈ ALPHABET)
    (h24 : dec (s.getD 24 'a').toNat < 16) (h25 : dec (s.getD 25 'a').toNat < 16) :
    ∃ v, decodeStr s = some (Except.ok v) ∧
      encode v = (s.take 4).map Char.toNat ++ [95] ++ (s.drop 4).map Char.toNat := by
  obtain ⟨c0, c1, c2, c3, c4, c5, c6, c7, c8, c9, c10, c11, c12, c13, c14, c15, c16, c17, c18, c19, c20, c21, c22, c23, c24, c25, rfl⟩ := list26 s hlen
  rw [show ([c0, c1, c2, c3, c4, c5, c6, c7, c8, c9, c10, c11, c12, c13, c14, c15, c16, c17, c18, c19, c20, c21, c22, c23, c24, c25] : List Char).getD 24 'a' = c24 from rfl] at h24
  rw [show ([c0, c1, c2, c3, c4, c5, c6, c7, c8, c9, c10, c11, c12, c13, c14, c15, c16, c17, c18, c19, c20, c21, c22, c23, c24, c25] : List Char).getD 25 'a' = c25 from rfl] at h25
  have hu8 : decodeStr [c0, c1, c2, c3, c4, c5, c6, c7, c8, c9, c10, c11, c12, c13, c14, c15, c16, c17, c18, c19, c20, c21, c22, c23, c24, c25] =
      decode (List.map Char.toNat [c0, c1, c2, c3, c4, c5, c6, c7, c8, c9, c10, c11, c12, c13, c14, c15, c16, c17, c18, c19, c20, c21, c22, c23, c24, c25]) := by
    simp only [decodeStr]
    rw [utf8_alpha halpha]
  rw [hu8]
  simp only [List.map]
  have hmem : ∀ b ∈ [c0.toNat, c1.toNat, c2.toNat, c3.toNat, c4.toNat, c5.toNat, c6.toNat, c7.toNat, c8.toNat, c9.toNat, c10.toNat, c11.toNat, c12.toNat, c13.toNat, c14.toNat, c15.toNat, c16.toNat, c17.toNat, c18.toNat, c19.toNat, c20.toNat, c21.toNat, c22.toNat, c23.toNat, c24.toNat, c25.toNat], b ∈ ENCODE := by
    intro b hb
    simp only [List.mem_cons] at hb
    rcases hb with rfl | rfl | rfl | rfl | rfl | rfl | rfl | rfl | rfl | rfl | rfl | rfl | rfl | rfl | rfl | rfl | rfl | rfl | rfl | rfl | rfl | rfl | rfl | rfl | rfl | rfl | hb
    · exact alpha_toNat_mem (halpha c0 (by simp))
    · exact alpha_toNat_mem (halpha c1 (by simp))
    · exact alpha_toNat_mem (halpha c2 (by simp))
    · exact alpha_toNat_mem (halpha c3 (by simp))
    · exact alpha_toNat_mem (halpha c4 (by simp))
    · exact alpha_toNat_mem (halpha c5 (by simp))
    · exact alpha_toNat_mem (halpha c6 (by simp))
    · exact alpha_toNat_mem (halpha c7 (by simp))
    · exact alpha_toNat_mem (halpha c8 (by simp))
    · exact alpha_toNat_mem (halpha c9 (by simp))
    · exact alpha_toNat_mem (halpha c10 (by simp))
    · exact alpha_toNat_mem (halpha c11 (by simp))
    · exact alpha_toNat_mem (halpha c12 (by simp))
    · exact alpha_toNat_mem (halpha c13 (by simp))
    · exact alpha_toNat_mem (halpha c14 (by simp))
    · exact alpha_toNat_mem (halpha c15 (by simp))
    · exact alpha_toNat_mem (halpha c16 (by simp))
    · exact alpha_toNat_mem (halpha c17 (by simp))
    · exact alpha_toNat_mem (halpha c18 (by simp))
    · exact alpha_toNat_mem (halpha c19 (by simp))
    · exact alpha_toNat_mem (halpha c20 (by simp))
    · exact alpha_toNat_mem (halpha c21 (by simp))
    · exact alpha_toNat_mem (halpha c22 (by simp))
    · exact alpha_toNat_mem (halpha c23 (by simp))
    · exact alpha_toNat_mem (halpha c24 (by simp))
    · exact alpha_toNat_mem (halpha c25 (by simp))
    · exact absurd hb (List.not_mem_nil b)
  obtain ⟨hdec, henc⟩ := encode_decode_bytes
    c0.toNat c1.toNat c2.toNat c3.toNat c4.toNat c5.toNat c6.toNat c7.toNat c8.toNat
    c9.toNat c10.toNat c11.toNat c12.toNat c13.toNat c14.toNat c15.toNat c16.toNat
    c17.toNat c18.toNat c19.toNat c20.toNat c21.toNat c22.toNat c23.toNat c24.toNat
    c25.toNat hmem (by omega) (by omega)
  refine ⟨_, hdec, ?_⟩
  rw [henc]
  rfl

theorem roundtrip_encode_decode_witness :
    ∃ v, decodeStr ['u', 's', 'e', 'r', 'a', 'a', 'c', 'c', 'v', 'p', 'p', '5', 'g', 'u', 'h', 't', '4', 'd', 't', 's', '5', '6', 'j', 'e', '5', 'a'] = some (Except.ok v) ∧
      encode v = ((['u', 's', 'e', 'r', 'a', 'a', 'c', 'c', 'v', 'p', 'p', '5', 'g', 'u', 'h', 't', '4', 'd', 't', 's', '5', '6', 'j', 'e', '5', 'a'] : List Char).take 4).map Char.toNat ++ [95] ++
        ((['u', 's', 'e', 'r', 'a', 'a', 'c', 'c', 'v', 'p', 'p', '5', 'g', 'u', 'h', 't', '4', 'd', 't', 's', '5', '6', 'j', 'e', '5', 'a'] : List Char).drop 4).map Char.toNat :=
  roundtrip_encode_decode ['u', 's', 'e', 'r', 'a', 'a', 'c', 'c', 'v', 'p', 'p', '5', 'g', 'u', 'h', 't', '4', 'd', 't', 's', '5', '6', 'j', 'e', '5', 'a'] (by decide) (by decide) (by decide) (by decide)

/-- The original claim is false twice over: a 26-character alphabet string
whose 4th and 25th characters decode below 16 can still fail to decode
(when its 26th character decodes to 16 or more), and even when decoding
succeeds the re-encoded text contains the underscore separator, so it never
equals the 26-character input verbatim. -/
theorem roundtrip_str_counterexample :
    (dec (((['2', '2', '2', '2', '2', '2', '2', '2', '2', '2', '2', '2', '2', '2', '2', '2', '2', '2', '2', '2', '2', '2', '2', '2', '2', 'z'] : List Char).getD 3 'a').toNat) < 16 ∧
     dec (((['2', '2', '2', '2', '2', '2', '2', '2', '2', '2', '2', '2', '2', '2', '2', '2', '2', '2', '2', '2', '2', '2', '2', '2', '2', 'z'] : List Char).getD 24 'a').toNat) < 16 ∧
     decodeStr ['2', '2', '2', '2', '2', '2', '2', '2', '2', '2', '2', '2', '2', '2', '2', '2', '2', '2', '2', '2', '2', '2', '2', '2', '2', 'z'] = some (Except.error DecodeError.Overflow)) ∧
    (decodeStr ['2', '2', '2', '2', '2', '2', '2', '2', '2', '2', '2', '2', '2', '2', '2', '2', '2', '2', '2', '2', '2', '2', '2', '2', '2', '2'] = some (Except.ok 0) ∧
     encode 0 ≠ (['2', '2', '2', '2', '2', '2', '2', '2', '2', '2', '2', '2', '2', '2', '2', '2', '2', '2', '2', '2', '2', '2', '2', '2', '2', '2'] : List Char).map Char.toNat) := by
  exact ⟨⟨by decide, by decide, by decide⟩, by decide, by decide⟩

/-- Claim C6 (amended): the length check counts UTF-8 bytes, not symbols:
whenever the byte count of the input after removing underscore bytes
differs from 26, decode fails with InvalidLength. -/
theorem length_validation (s : List Char)
    (h : ((utf8 s).filter (fun b => b ≠ 95)).length ≠ 26) :
    decodeStr s = some (Except.error DecodeError.InvalidLength) := by
  simp only [decodeStr, decode]
  rw [if_pos h]

theorem length_validation_witness :
    ((utf8 ['a']).filter (fun b => b ≠ 95)).length ≠ 26 ∧
    decodeStr ['a'] = some (Except.error DecodeError.InvalidLength) :=
  ⟨by decide, length_validation ['a'] (by decide)⟩

/-- The original claim is false for non-ASCII input: this string has 13
symbols (not 26) after separator removal, yet decode reports InvalidChar,
not InvalidLength, because the 13 two-byte characters occupy exactly 26
UTF-8 bytes and so pass the byte-count length check. -/
theorem length_symbols_counterexample :
    (List.replicate 13 'é').filter (fun c => c ≠ '_') = List.replicate 13 'é' ∧
    (List.replicate 13 'é').length = 13 ∧
    decodeStr (List.replicate 13 'é') = some (Except.error DecodeError.InvalidChar) ∧
    decodeStr (List.replicate 13 'é') ≠ some (Except.error DecodeError.InvalidLength) := by
  exact ⟨by decide, by decide, by decide, by decide⟩

/-- Claim C9: decode is total: for every string, of any length and content,
decoding returns a value, either a successful u128 or one of the three
errors; no out-of-bounds access or panic is reachable. -/
theorem decode_never_panics (s : List Char) : ∃ r, decodeStr s = some r :=
  decode_total (utf8 s)

/-- Claim C10: decode treats underscores as ignorable everywhere: any input
decodes to exactly the same result as the same input with every underscore
removed. -/
theorem decode_ignores_underscores (s : List Char) :
    decodeStr s = decodeStr (s.filter (fun c => c ≠ '_')) :=
  (decode_congr_filter (filter_utf8_comm s)).symm

theorem decode_encode_witness :
    (0 : Nat) < 2 ^ 128 ∧ decode (encode 0) = some (Except.ok 0) :=
  ⟨by norm_num, decode_encode 0 (by norm_num)⟩

/-- The prefix-and-version byte string assembled inside from_prefix_and_milliseconds. -/
def pfxBytes (p : List Char) : List Nat :=
  utf8 ((p ++ List.replicate (4 - p.length) 'z').take 4) ++ [97]

/-- First packed prefix byte produced during construction. -/
def pB0 (p : List Char) : Nat :=
  shl8 (dec ((pfxBytes p).getD 0 0)) 3 ||| (dec ((pfxBytes p).getD 1 0) >>> 2)

/-- Second packed prefix byte produced during construction. -/
def pB1 (p : List Char) : Nat :=
  shl8 (dec ((pfxBytes p).getD 1 0)) 6 ||| shl8 (dec ((pfxBytes p).getD 2 0)) 1 |||
    (dec ((pfxBytes p).getD 3 0) >>> 4)

/-- Third packed prefix byte produced during construction. -/
def pB2 (p : List Char) : Nat :=
  shl8 (dec ((pfxBytes p).getD 3 0)) 4 ||| (dec ((pfxBytes p).getD 4 0) &&& 15)

theorem pB0_lt (p : List Char) : pB0 p < 256 :=
  lt256_or (shl8_lt _ _) (shr_lt256 2 (dec_le _))

theorem pB1_lt (p : List Char) : pB1 p < 256 :=
  lt256_or (lt256_or (shl8_lt _ _) (shl8_lt _ _)) (shr_lt256 4 (dec_le _))

theorem pB2_lt (p : List Char) : pB2 p < 256 :=
  lt256_or (shl8_lt _ _) (and15_lt256 _)

theorem fpm_spec2 (p : List Char) (ms r : Nat) :
    from_prefix_and_milliseconds p ms r =
      some ((((ms >>> 8) <<< 88) % 2 ^ 128) ||| (((r % 2 ^ 64) <<< 24) % 2 ^ 128) |||
        ((pB0 p <<< 16) % 2 ^ 128) ||| ((pB1 p <<< 8) % 2 ^ 128) ||| (pB2 p % 2 ^ 128)) := by
  simp only [from_prefix_and_milliseconds]
  have ha : utf8 ((p ++ List.replicate (4 - p.length) 'z').take 4 ++ VERSION) =
      utf8 ((p ++ List.replicate (4 - p.length) 'z').take 4) ++ [97] := by
    rw [utf8_append]
    rfl
  have hlen4 : ((p ++ List.replicate (4 - p.length) 'z').take 4).length = 4 := by
    rw [List.length_take, List.length_append, List.length_replicate]
    omega
  have hge := utf8_len_ge ((p ++ List.replicate (4 - p.length) 'z').take 4)
  rw [hlen4] at hge
  have hlen : 5 ≤ (utf8 ((p ++ List.replicate (4 - p.length) 'z').take 4) ++ [97]).length := by
    rw [List.length_append]
    simp only [List.length_cons, List.length_nil]
    omega
  have hlast : dec ((utf8 ((p ++ List.replicate (4 - p.length) 'z').take 4) ++ [97]).getD
      ((utf8 ((p ++ List.replicate (4 - p.length) 'z').take 4) ++ [97]).length - 1) 0) ≤ 15 := by
    rw [getD_last97]
    decide
  rw [ha, decode_prefix_getD _ hlen hlast]
  simp only []
  rfl

theorem blt_self_eq_false (a : Nat) : Nat.blt a a = false := by
  cases h : Nat.blt a a with
  | false => rfl
  | true => exact absurd (Nat.blt_eq ▸ h) (Nat.lt_irrefl a)

theorem lex_append_left : ∀ (x y1 y2 : List Nat),
    lexLt (x ++ y1) (x ++ y2) = lexLt y1 y2 := by
  intro x
  induction x with
  | nil =>
    intro y1 y2
    rfl
  | cons a t ih =>
    intro y1 y2
    simp only [List.cons_append, lexLt, List.append_eq]
    rw [ih, blt_self_eq_false]
    simp

theorem lexLt_digitsBE (w : Nat) : ∀ (N1 N2 : Nat) (y1 y2 : List Nat), N1 < N2 → N2 < 32 ^ w →
    lexLt ((digitsBE w N1).map enc ++ y1) ((digitsBE w N2).map enc ++ y2) = true := by
  induction w with
  | zero =>
    intro N1 N2 y1 y2 h1 h2
    simp only [Nat.pow_zero] at h2
    omega
  | succ w ih =>
    intro N1 N2 y1 y2 h1 h2
    have hpow : (32 : Nat) ^ (w + 1) = 32 ^ w * 32 := Nat.pow_succ 32 w
    have hpos : 0 < (32 : Nat) ^ w := Nat.pos_pow_of_pos w (by norm_num)
    have hd2 : N2 / 32 ^ w < 32 := Nat.div_lt_of_lt_mul (by omega)
    have hd1 : N1 / 32 ^ w < 32 := Nat.div_lt_of_lt_mul (by omega)
    have hm1 : N1 / 32 ^ w % 32 = N1 / 32 ^ w := Nat.mod_eq_of_lt hd1
    have hm2 : N2 / 32 ^ w % 32 = N2 / 32 ^ w := Nat.mod_eq_of_lt hd2
    have hle : N1 / 32 ^ w ≤ N2 / 32 ^ w := Nat.div_le_div_right (Nat.le_of_lt h1)
    simp only [digitsBE, List.map_cons, List.cons_append, lexLt]
    rcases Nat.lt_or_ge (N1 / 32 ^ w % 32) (N2 / 32 ^ w % 32) with hlt | hge
    · have hmono := enc_strictMono (Nat.mod_lt _ (by norm_num)) (Nat.mod_lt _ (by norm_num)) hlt
      have hblt : Nat.blt (enc (N1 / 32 ^ w % 32)) (enc (N2 / 32 ^ w % 32)) = true := by
        rw [Nat.blt_eq]
        exact hmono
      rw [hblt]
      simp
    · rw [hm1, hm2] at hge
      have ha : N1 / 32 ^ w = N2 / 32 ^ w := Nat.le_antisymm hle hge
      have heq : N1 / 32 ^ w % 32 = N2 / 32 ^ w % 32 := by rw [ha]
      rw [heq, blt_self_eq_false]
      simp only [Bool.false_or, beq_self_eq_true, Bool.true_and]
      have hmlt : N1 % 32 ^ w < N2 % 32 ^ w := by
        have e1 := Nat.div_add_mod N1 (32 ^ w)
        have e2 := Nat.div_add_mod N2 (32 ^ w)
        rw [ha] at e1
        revert e1 e2
        generalize 32 ^ w * (N2 / 32 ^ w) = P
        generalize N1 % 32 ^ w = b1
        generalize N2 % 32 ^ w = b2
        intro e1 e2
        omega
      rw [← digitsBE_mod w N1, ← digitsBE_mod w N2]
      exact ih (N1 % 32 ^ w) (N2 % 32 ^ w) y1 y2 hmlt (Nat.mod_lt _ hpos)

/-- Claim C4 (amended): with the SAME prefix, timestamps at least 256 ms apart
and below the 2^48 wrap limit give lexicographically ordered encodings. -/
theorem lex_monotonic_same_prefix (p : List Char) (t1 t2 r1 r2 u1 u2 : Nat)
    (h1 : from_prefix_and_milliseconds p t1 r1 = some u1)
    (h2 : from_prefix_and_milliseconds p t2 r2 = some u2)
    (hd : t1 + 256 ≤ t2) (hb : t2 < 2 ^ 48) :
    lexLt (encode u1) (encode u2) = true := by
  have hp0 := pB0_lt p
  have hp1 := pB1_lt p
  have hp2 := pB2_lt p
  have hr1 : r1 % 2 ^ 64 < 2 ^ 64 := Nat.mod_lt _ (by norm_num)
  have hr2 : r2 % 2 ^ 64 < 2 ^ 64 := Nat.mod_lt _ (by norm_num)
  have s1 := fpm_spec2 p t1 r1
  have s2 := fpm_spec2 p t2 r2
  rw [h1, res_eq_sum _ _ _ _ _ hr1 hp0 hp1 hp2] at s1
  rw [h2, res_eq_sum _ _ _ _ _ hr2 hp0 hp1 hp2] at s2
  have hu1 : u1 = (t1 >>> 8) % 2 ^ 40 * 2 ^ 88 + r1 % 2 ^ 64 * 2 ^ 24 +
      pB0 p * 2 ^ 16 + pB1 p * 2 ^ 8 + pB2 p := Option.some_inj.mp s1
  have hu2 : u2 = (t2 >>> 8) % 2 ^ 40 * 2 ^ 88 + r2 % 2 ^ 64 * 2 ^ 24 +
      pB0 p * 2 ^ 16 + pB1 p * 2 ^ 8 + pB2 p := Option.some_inj.mp s2
  rw [Nat.shiftRight_eq_div_pow] at hu1 hu2
  clear s1 s2 h1 h2
  have e24 : u1 % 2 ^ 24 = u2 % 2 ^ 24 := by omega
  have hlt : u1 / 2 ^ 88 < u2 / 2 ^ 88 := by omega
  have hub1 : u1 < 2 ^ 128 := by omega
  have hub2 : u2 < 2 ^ 128 := by omega
  have hbound : u2 / 2 ^ 88 < 32 ^ 8 := by
    rw [show (32 : Nat) ^ 8 = 2 ^ 40 from by norm_num]
    omega
  rw [encode_chars u1 hub1, encode_chars u2 hub2, e24]
  simp only [List.append_assoc]
  rw [lex_append_left, lex_append_left]
  exact lexLt_digitsBE 8 _ _ _ _ hlt hbound

/-- The original claim is false across different prefixes: the identifier
built from prefix zzzz at time 0 encodes to text that is lexicographically
greater than the text of the identifier built from prefix aaaa 256 ms
later, even though its underlying 128-bit integer is smaller. -/
theorem lex_cross_prefix_counterex :
    from_prefix_and_milliseconds ['z', 'z', 'z', 'z'] 0 0 = some 16777206 ∧
    from_prefix_and_milliseconds ['a', 'a', 'a', 'a'] 256 0 = some 309485009821345068728028262 ∧
    (16777206 : Nat) < 309485009821345068728028262 ∧
    lexLt (encode 16777206) (encode 309485009821345068728028262) = false := by
  exact ⟨by decide, by decide, by norm_num, by decide⟩

theorem lex_monotonic_same_prefix_witness :
    from_prefix_and_milliseconds ['u', 's', 'e', 'r'] 0 0 = some 14030198 ∧
    from_prefix_and_milliseconds ['u', 's', 'e', 'r'] 256 0 = some 309485009821345068738811254 ∧
    0 + 256 ≤ 256 ∧ (256 : Nat) < 2 ^ 48 ∧
    lexLt (encode 14030198) (encode 309485009821345068738811254) = true :=
  ⟨by decide, by decide, by norm_num, by norm_num,
    lex_monotonic_same_prefix ['u', 's', 'e', 'r'] 0 256 0 0 14030198
      309485009821345068738811254 (by decide) (by decide) (by norm_num) (by norm_num)⟩

theorem milliseconds_of_construct_witness :
    (1720568902000 : Nat) < 2 ^ 48 ∧
    from_prefix_and_milliseconds ['u', 's', 'e', 'r'] 1720568902000 0 =
      some 2080040169918392890464532945385690486 ∧
    milliseconds 2080040169918392890464532945385690486 = (1720568902000 >>> 8) <<< 8 ∧
    1720568902000 - milliseconds 2080040169918392890464532945385690486 < 256 :=
  ⟨by norm_num, by decide,
    milliseconds_of_construct ['u', 's', 'e', 'r'] 1720568902000 0 (by norm_num)
      2080040169918392890464532945385690486 (by decide)⟩

end Upid
